import Mathlib

/-!
# WatermelonDB native bridge: batch execution and connection teardown

A shallow embedding of

* `src/native/shared/Database-batch.cpp` (`Database::batch`, `Database::batchJSON`),
* `src/native/shared/Sqlite.cpp` (`resolveDatabasePath`, `SqliteDb::destroy`).

C++ exceptions are modelled by `Except Err`, with the state reached at the
point of the throw returned next to the exception, so that a `catch` block
runs on the state the `try` block left behind.  The helpers of `Database`
that the batch functions call (`beginTransaction`, `executeUpdate`,
`prepareQuery`, `commit`, `rollback`) and the SQLite C API are parameters of
the development: every theorem holds for every implementation of them.
Each call of a helper is recorded, with its result, in a trace, and so is
each exception thrown while the payload is decoded.
-/

namespace WatermelonDB

/-! ## Data model -/

/-- A JavaScript / JSON value: what a `jsi::Value` of a structured payload or
a node of a parsed JSON document can be. -/
inductive Json where
  | null : Json
  | bool (b : Bool) : Json
  | num (n : Int) : Json
  | str (s : String) : Json
  | arr (items : List Json) : Json
  | obj (fields : List (String × Json)) : Json

mutual
/-- Equality of two values is decidable. -/
def Json.decEq : (a b : Json) → Decidable (a = b)
  | .null, .null => isTrue rfl
  | .bool a, .bool b =>
    if h : a = b then isTrue (by rw [h]) else isFalse (by intro h'; cases h'; exact h rfl)
  | .num a, .num b =>
    if h : a = b then isTrue (by rw [h]) else isFalse (by intro h'; cases h'; exact h rfl)
  | .str a, .str b =>
    if h : a = b then isTrue (by rw [h]) else isFalse (by intro h'; cases h'; exact h rfl)
  | .arr a, .arr b =>
    match Json.decEqList a b with
    | isTrue h => isTrue (by rw [h])
    | isFalse h => isFalse (by intro h'; cases h'; exact h rfl)
  | .obj a, .obj b =>
    match Json.decEqFields a b with
    | isTrue h => isTrue (by rw [h])
    | isFalse h => isFalse (by intro h'; cases h'; exact h rfl)
  | .null, .bool _ | .null, .num _ | .null, .str _ | .null, .arr _ | .null, .obj _ =>
    isFalse (by intro h; cases h)
  | .bool _, .null | .bool _, .num _ | .bool _, .str _ | .bool _, .arr _ | .bool _, .obj _ =>
    isFalse (by intro h; cases h)
  | .num _, .null | .num _, .bool _ | .num _, .str _ | .num _, .arr _ | .num _, .obj _ =>
    isFalse (by intro h; cases h)
  | .str _, .null | .str _, .bool _ | .str _, .num _ | .str _, .arr _ | .str _, .obj _ =>
    isFalse (by intro h; cases h)
  | .arr _, .null | .arr _, .bool _ | .arr _, .num _ | .arr _, .str _ | .arr _, .obj _ =>
    isFalse (by intro h; cases h)
  | .obj _, .null | .obj _, .bool _ | .obj _, .num _ | .obj _, .str _ | .obj _, .arr _ =>
    isFalse (by intro h; cases h)
/-- Equality of two lists of values is decidable. -/
def Json.decEqList : (a b : List Json) → Decidable (a = b)
  | [], [] => isTrue rfl
  | [], _ :: _ => isFalse (by intro h; cases h)
  | _ :: _, [] => isFalse (by intro h; cases h)
  | x :: xs, y :: ys =>
    match Json.decEq x y, Json.decEqList xs ys with
    | isTrue h₁, isTrue h₂ => isTrue (by rw [h₁, h₂])
    | isFalse h, _ => isFalse (by intro h'; cases h'; exact h rfl)
    | _, isFalse h => isFalse (by intro h'; cases h'; exact h rfl)
/-- Equality of two lists of object members is decidable. -/
def Json.decEqFields : (a b : List (String × Json)) → Decidable (a = b)
  | [], [] => isTrue rfl
  | [], _ :: _ => isFalse (by intro h; cases h)
  | _ :: _, [] => isFalse (by intro h; cases h)
  | (k, x) :: xs, (l, y) :: ys =>
    if hk : k = l then
      match Json.decEq x y, Json.decEqFields xs ys with
      | isTrue h₁, isTrue h₂ => isTrue (by rw [hk, h₁, h₂])
      | isFalse h, _ => isFalse (by intro h'; cases h'; exact h rfl)
      | _, isFalse h => isFalse (by intro h'; cases h'; exact h rfl)
    else isFalse (by intro h'; cases h'; exact hk rfl)
end

instance : DecidableEq Json := Json.decEq

/-- The identity of a thrown `std::exception`: its message. -/
abbrev Err := String

deriving instance DecidableEq for Except

/-- A compiled statement handle (`sqlite3_stmt *`). -/
abbrev Stmt := Nat

/-- One element of the structured payload of `Database::batch`, an array
`[opType, table, sql, argsBatches]`.  `batch` reads index 2 with `getString`
and index 3 with `getArray` (and each of its elements with `getArray`), which
assert on any other shape, so those positions are typed; indices 0 and 1 are
never read and may hold any value. -/
structure Operation where
  opType : Json
  table : Json
  sql : String
  argsBatches : List (List Json)
  deriving DecidableEq

/-- One element of the structured payload as `Database::batch` reads it
through the jsi accessors, which are library code: the read of `sql` (line
18: `getValueAtIndex(rt, 2).getString(rt).utf8(rt)`) returns a string or
throws, the read of `argsBatches` (line 20) returns an array or throws, and
the read of each of its elements (line 23) returns an array of values or
throws.  Indices 0 and 1 are never read. -/
structure JsiOperation where
  sql : Except Err String
  argsBatches : Except Err (List (Except Err (List Json)))

/-- The result of a call that returns `void` or throws. -/
def Except.failed {α : Type} : Except Err α → Option Err
  | .error e => some e
  | .ok _ => none

/-- One step of the batch functions that can be seen from outside: a call of
a `Database` helper or of the SQLite C API, together with what the call
returned, or an exception thrown while decoding the payload (by the jsi
accessors in `batch`, by simdjson in `batchJSON`). -/
inductive Event where
  | beginTransaction (threw : Option Err) : Event
  | decode (threw : Err) : Event
  | executeUpdate (sql : String) (args : List Json) (threw : Option Err) : Event
  | prepareQuery (sql : String) (result : Err ⊕ Stmt) : Event
  | executeUpdateStmt (stmt : Stmt) (threw : Option Err) : Event
  | sqlite3_reset (stmt : Stmt) : Event
  | sqlite3_clear_bindings (stmt : Stmt) : Event
  | commit (threw : Option Err) : Event
  | rollback : Event
  deriving DecidableEq

/-- The exception a recorded call threw, if it threw. -/
def Event.threw : Event → Option Err
  | .beginTransaction r => r
  | .decode e => some e
  | .executeUpdate _ _ r => r
  | .prepareQuery _ (.inl e) => some e
  | .prepareQuery _ (.inr _) => none
  | .executeUpdateStmt _ r => r
  | .sqlite3_reset _ => none
  | .sqlite3_clear_bindings _ => none
  | .commit r => r
  | .rollback => none

/-- The call is `commit()`. -/
def Event.isCommit : Event → Bool
  | .commit _ => true
  | _ => false

/-- The call is `rollback()`. -/
def Event.isRollback : Event → Bool
  | .rollback => true
  | _ => false

/-- The call is `beginTransaction()`. -/
def Event.isBegin : Event → Bool
  | .beginTransaction _ => true
  | _ => false

/-- The step is an exception of the decoder, not a call of the engine. -/
def Event.isDecode : Event → Bool
  | .decode _ => true
  | _ => false

/-- The helpers of `Database` used by the batch functions, over an arbitrary
engine state `σ`.  A throwing helper returns the state it left behind.

`rollback` does not throw (see `Database.rollback`); `sqlite3_reset` and
`sqlite3_clear_bindings` are C functions whose return code `batchJSON`
discards. -/
structure Engine (σ : Type) where
  beginTransaction : σ → σ × Except Err Unit
  executeUpdate : String → List Json → σ → σ × Except Err Unit
  prepareQuery : String → σ → σ × Except Err Stmt
  executeUpdateStmt : Stmt → σ → σ × Except Err Unit
  sqlite3_reset : Stmt → σ → σ
  sqlite3_clear_bindings : Stmt → σ → σ
  commit : σ → σ × Except Err Unit
  rollback : σ → σ

/-- The engine state together with the trace of calls made so far. -/
structure World (σ : Type) where
  engine : σ
  trace : List Event
  deriving DecidableEq

/-- What a function of `Database` leaves behind: the world, and either a
normal return or the exception that escaped. -/
abbrev Outcome (σ : Type) (α : Type) := World σ × Except Err α

namespace Database

variable {σ : Type}

/-- Call `beginTransaction()`. -/
def beginTransaction (E : Engine σ) (w : World σ) : Outcome σ Unit :=
  let r := E.beginTransaction w.engine
  (⟨r.1, w.trace ++ [Event.beginTransaction (Except.failed r.2)]⟩, r.2)

/-- Call `executeUpdate(sql, args)`. -/
def executeUpdate (E : Engine σ) (sql : String) (args : List Json) (w : World σ) :
    Outcome σ Unit :=
  let r := E.executeUpdate sql args w.engine
  (⟨r.1, w.trace ++ [Event.executeUpdate sql args (Except.failed r.2)]⟩, r.2)

/-- Call `prepareQuery(sql)`. -/
def prepareQuery (E : Engine σ) (sql : String) (w : World σ) : Outcome σ Stmt :=
  let r := E.prepareQuery sql w.engine
  match r.2 with
  | .error e => (⟨r.1, w.trace ++ [Event.prepareQuery sql (.inl e)]⟩, .error e)
  | .ok stmt => (⟨r.1, w.trace ++ [Event.prepareQuery sql (.inr stmt)]⟩, .ok stmt)

/-- Call `executeUpdate(stmt)`. -/
def executeUpdateStmt (E : Engine σ) (stmt : Stmt) (w : World σ) : Outcome σ Unit :=
  let r := E.executeUpdateStmt stmt w.engine
  (⟨r.1, w.trace ++ [Event.executeUpdateStmt stmt (Except.failed r.2)]⟩, r.2)

/-- Call `sqlite3_reset(stmt)`. -/
def sqlite3_reset (E : Engine σ) (stmt : Stmt) (w : World σ) : World σ :=
  ⟨E.sqlite3_reset stmt w.engine, w.trace ++ [Event.sqlite3_reset stmt]⟩

/-- Call `sqlite3_clear_bindings(stmt)`. -/
def sqlite3_clear_bindings (E : Engine σ) (stmt : Stmt) (w : World σ) : World σ :=
  ⟨E.sqlite3_clear_bindings stmt w.engine, w.trace ++ [Event.sqlite3_clear_bindings stmt]⟩

/-- Call `commit()`. -/
def commit (E : Engine σ) (w : World σ) : Outcome σ Unit :=
  let r := E.commit w.engine
  (⟨r.1, w.trace ++ [Event.commit (Except.failed r.2)]⟩, r.2)

/-- Modelled from the spec: `Database::rollback` is not among the sources; by
the contract of the transaction controller it "is always safe to call after
`begin()`, even after a mid-batch failure", so the call returns normally. -/
def rollback (E : Engine σ) (w : World σ) : World σ :=
  ⟨E.rollback w.engine, w.trace ++ [Event.rollback]⟩

/-- An exception thrown while decoding the payload: it is recorded in the
trace and leaves the engine as it is. -/
def decodeThrows {α : Type} (e : Err) (w : World σ) : Outcome σ α :=
  (⟨w.engine, w.trace ++ [Event.decode e]⟩, .error e)

/-! ## `Database::batch` (Database-batch.cpp, lines 9-33) -/

/-- The inner loop of `batch` (lines 22-25): `executeUpdate(sql, args)` for
each element of `argsBatches`, in order, until one throws. -/
def batch.argsLoop (E : Engine σ) (sql : String) :
    List (List Json) → World σ → Outcome σ Unit
  | [], w => (w, .ok ())
  | args :: rest, w =>
    match executeUpdate E sql args w with
    | (w', .error e) => (w', .error e)
    | (w', .ok ()) => batch.argsLoop E sql rest w'

/-- The outer loop of `batch` (lines 15-27): for each operation, read `sql`
at index 2 and `argsBatches` at index 3 and run the inner loop. -/
def batch.operationsLoop (E : Engine σ) : List Operation → World σ → Outcome σ Unit
  | [], w => (w, .ok ())
  | operation :: rest, w =>
    match batch.argsLoop E operation.sql operation.argsBatches w with
    | (w', .error e) => (w', .error e)
    | (w', .ok ()) => batch.operationsLoop E rest w'

/-- The `try` block of `batch` (lines 14-28): the loops, then `commit()`. -/
def batch.tryBlock (E : Engine σ) (operations : List Operation) (w : World σ) :
    Outcome σ Unit :=
  match batch.operationsLoop E operations w with
  | (w', .error e) => (w', .error e)
  | (w', .ok ()) => commit E w'

/-- The function `Database::batch`: `beginTransaction()` outside the `try`; any exception
of the `try` block is caught, `rollback()` is called and the exception is
rethrown with `throw;`. -/
def batch (E : Engine σ) (operations : List Operation) (w : World σ) : Outcome σ Unit :=
  match beginTransaction E w with
  | (w₁, .error e) => (w₁, .error e)
  | (w₁, .ok ()) =>
    match batch.tryBlock E operations w₁ with
    | (w₂, .error e) => (rollback E w₂, .error e)
    | (w₂, .ok ()) => (w₂, .ok ())

/-! ## `Database::batch` on a payload whose reads may throw -/

/-- The inner loop of `batch` (lines 22-25) when the read of line 23 may
throw: each element of `argsBatches` is read, then executed. -/
def batchJsi.argsLoop (E : Engine σ) (sql : String) :
    List (Except Err (List Json)) → World σ → Outcome σ Unit
  | [], w => (w, .ok ())
  | .error e :: _, w => decodeThrows e w
  | .ok args :: rest, w =>
    match executeUpdate E sql args w with
    | (w', .error e) => (w', .error e)
    | (w', .ok ()) => batchJsi.argsLoop E sql rest w'

/-- The outer loop of `batch` (lines 15-27) when the reads of lines 16, 18
and 20 may throw: the element, then `sql`, then `argsBatches`, then the inner
loop. -/
def batchJsi.operationsLoop (E : Engine σ) :
    List (Except Err JsiOperation) → World σ → Outcome σ Unit
  | [], w => (w, .ok ())
  | .error e :: _, w => decodeThrows e w
  | .ok operation :: rest, w =>
    match operation.sql with
    | .error e => decodeThrows e w
    | .ok sql =>
      match operation.argsBatches with
      | .error e => decodeThrows e w
      | .ok argsBatches =>
        match batchJsi.argsLoop E sql argsBatches w with
        | (w', .error e) => (w', .error e)
        | (w', .ok ()) => batchJsi.operationsLoop E rest w'

/-- The `try` block of `batch` (lines 14-28) on such a payload. -/
def batchJsi.tryBlock (E : Engine σ) (operations : List (Except Err JsiOperation))
    (w : World σ) : Outcome σ Unit :=
  match batchJsi.operationsLoop E operations w with
  | (w', .error e) => (w', .error e)
  | (w', .ok ()) => commit E w'

/-- The function `Database::batch` on a payload given by what the jsi
accessors do on it, with the same frame as `batch`. -/
def batchJsi (E : Engine σ) (operations : List (Except Err JsiOperation)) (w : World σ) :
    Outcome σ Unit :=
  match beginTransaction E w with
  | (w₁, .error e) => (w₁, .error e)
  | (w₁, .ok ()) =>
    match batchJsi.tryBlock E operations w₁ with
    | (w₂, .error e) => (rollback E w₂, .error e)
    | (w₂, .ok ()) => (w₂, .ok ())

/-- A well-shaped operation, as the jsi accessors read it: no read throws. -/
def JsiOperation.ofOperation (operation : Operation) : JsiOperation :=
  ⟨.ok operation.sql, .ok (operation.argsBatches.map Except.ok)⟩

/-! ## `Database::batchJSON` (Database-batch.cpp, lines 35-73) -/

/-- The error of simdjson when a value is converted to a type it does not
have (`simdjson::INCORRECT_TYPE`), thrown as a `simdjson_error`. -/
def INCORRECT_TYPE : Err := "INCORRECT_TYPE: The JSON element does not have the requested type."

/-- The loop over `argsBatches` (lines 58-62).  Each element is converted to
an `ondemand::array`, which throws when it is not an array; the array is not
read.  Then `executeUpdate(stmt)`, `sqlite3_reset(stmt)`,
`sqlite3_clear_bindings(stmt)`. -/
def batchJSON.argsLoop (E : Engine σ) (stmt : Stmt) : List Json → World σ → Outcome σ Unit
  | [], w => (w, .ok ())
  | .arr _ :: rest, w =>
    match executeUpdateStmt E stmt w with
    | (w', .error e) => (w', .error e)
    | (w', .ok ()) =>
      batchJSON.argsLoop E stmt rest (sqlite3_clear_bindings E stmt (sqlite3_reset E stmt w'))
  | _ :: _, w => decodeThrows INCORRECT_TYPE w

/-- The loop over the fields of one operation (lines 51-65), with the local
variables `sql` and `fieldIdx`.  Field 2 is converted to a string, field 3 to
an array and executed at once; every other field is skipped unread. -/
def batchJSON.fieldsLoop (E : Engine σ) :
    List Json → String → Nat → World σ → Outcome σ Unit
  | [], _, _, w => (w, .ok ())
  | field :: rest, sql, fieldIdx, w =>
    if fieldIdx = 2 then
      match field with
      | .str v => batchJSON.fieldsLoop E rest v (fieldIdx + 1) w
      | _ => decodeThrows INCORRECT_TYPE w
    else if fieldIdx = 3 then
      match field with
      | .arr argsBatches =>
        match prepareQuery E sql w with
        | (w', .error e) => (w', .error e)
        | (w', .ok stmt) =>
          match batchJSON.argsLoop E stmt argsBatches w' with
          | (w₂, .error e) => (w₂, .error e)
          | (w₂, .ok ()) => batchJSON.fieldsLoop E rest sql (fieldIdx + 1) w₂
      | _ => decodeThrows INCORRECT_TYPE w
    else
      batchJSON.fieldsLoop E rest sql (fieldIdx + 1) w

/-- The loop over the document (lines 48-66): each element is converted to an
`ondemand::array`; `sql` starts empty and `fieldIdx` at 0 for each one. -/
def batchJSON.operationsLoop (E : Engine σ) : List Json → World σ → Outcome σ Unit
  | [], w => (w, .ok ())
  | .arr fields :: rest, w =>
    match batchJSON.fieldsLoop E fields "" 0 w with
    | (w', .error e) => (w', .error e)
    | (w', .ok ()) => batchJSON.operationsLoop E rest w'
  | _ :: _, w => decodeThrows INCORRECT_TYPE w

/-- The `try` block of `batchJSON` (lines 42-68).  `jsiJson` is what
`parser.iterate` makes of the payload: an error, thrown on the spot, or the
document, which is walked forwards; iterating a document that is not an array
throws. -/
def batchJSON.tryBlock (E : Engine σ) (jsiJson : Except Err Json) (w : World σ) :
    Outcome σ Unit :=
  match jsiJson with
  | .error e => decodeThrows e w
  | .ok (.arr operations) =>
    match batchJSON.operationsLoop E operations w with
    | (w', .error e) => (w', .error e)
    | (w', .ok ()) => commit E w'
  | .ok _ => decodeThrows INCORRECT_TYPE w

/-- The function `Database::batchJSON`: the same frame as `batch` around its
`try` block. -/
def batchJSON (E : Engine σ) (jsiJson : Except Err Json) (w : World σ) : Outcome σ Unit :=
  match beginTransaction E w with
  | (w₁, .error e) => (w₁, .error e)
  | (w₁, .ok ()) =>
    match batchJSON.tryBlock E jsiJson w₁ with
    | (w₂, .error e) => (rollback E w₂, .error e)
    | (w₂, .ok ()) => (w₂, .ok ())

/-! ## The same batch in both payload formats -/

/-- The array `[opType, table, sql, argsBatches]` of one operation, as it
stands in the serialized payload. -/
def encodeOperation (operation : Operation) : Json :=
  .arr [operation.opType, operation.table, .str operation.sql,
    .arr (operation.argsBatches.map Json.arr)]

/-- The serialized document with the logical content of a structured payload. -/
def encode (operations : List Operation) : Json :=
  .arr (operations.map encodeOperation)

end Database

/-! ## `Sqlite.cpp` -/

/-- The search of `std::string::rfind(pattern, pos)`, downwards from index `i`:
the greatest index not above `i` at which `pattern` occurs in `s`. -/
def rfind.downFrom (s pattern : List Char) : Nat → Option Nat
  | 0 => if (s.drop 0).take pattern.length = pattern then some 0 else none
  | i + 1 =>
    if (s.drop (i + 1)).take pattern.length = pattern then some (i + 1)
    else rfind.downFrom s pattern i

/-- The function `std::string::rfind(pattern, pos)`: the last occurrence of `pattern` in
`s` that starts at or before `pos`; `none` is `npos`. -/
def rfind (s pattern : List Char) (pos : Nat) : Option Nat :=
  if pattern.length ≤ s.length then
    rfind.downFrom s pattern (min pos (s.length - pattern.length))
  else none

/-- The function `resolveDatabasePath` (Sqlite.cpp, lines 12-20), over the platform's
resolver `platform::resolveDatabasePath`.  The second component lists the
arguments with which the platform's resolver was called. -/
def resolveDatabasePath (platformResolveDatabasePath : String → String) (path : String) :
    String × List String :=
  if path = "" ∨ path = ":memory:" ∨ rfind path.data "file:".data 0 = some 0
      ∨ rfind path.data "/".data 0 = some 0 then
    (path, [])
  else
    (platformResolveDatabasePath path, [path])

/-- The result code `SQLITE_OK`. -/
def SQLITE_OK : Int := 0

/-- One call made by `SqliteDb::destroy`: to the console of the platform or
to the SQLite C API. -/
inductive SqliteEvent where
  | consoleLog (message : String) : SqliteEvent
  | consoleError (message : String) : SqliteEvent
  | sqlite3_finalize (stmt : Stmt) : SqliteEvent
  | sqlite3_close (result : Int) : SqliteEvent
  deriving DecidableEq

/-- The part of the SQLite C API that `SqliteDb::destroy` uses, over the
state `σ` of a connection.  `statements` is the connection's list of
compiled statements, the one `sqlite3_next_stmt` walks: `sqlite3_next_stmt(db,
NULL)` is its head and `sqlite3_next_stmt(db, stmt)` the element after `stmt`. -/
structure SqliteApi (σ : Type) where
  statements : σ → List Stmt
  sqlite3_finalize : Stmt → σ → σ
  sqlite3_close : σ → σ × Int
  sqlite3_errmsg : σ → String

/-- The object `SqliteDb`: the connection handle `sqlite`, the flag
`isDestroyed_`, and the calls made through the object so far. -/
structure SqliteDb (σ : Type) where
  sqlite : σ
  isDestroyed_ : Bool
  calls : List SqliteEvent
  deriving DecidableEq

namespace SqliteDb

variable {σ : Type}

/-- The loop of lines 58-61: walk the statements of the connection with
`sqlite3_next_stmt` and `emplace_front` each on `list`. -/
def destroy.collect : List Stmt → List Stmt → List Stmt
  | [], list => list
  | stmt :: rest, list => destroy.collect rest (stmt :: list)

/-- Line 62: `sqlite3_finalize` on each element of `list`, front to back. -/
def destroy.finalizeAll (api : SqliteApi σ) : List Stmt → SqliteDb σ → SqliteDb σ
  | [], self => self
  | stmt :: rest, self =>
    destroy.finalizeAll api rest
      { self with
        sqlite := api.sqlite3_finalize stmt self.sqlite
        calls := self.calls ++ [SqliteEvent.sqlite3_finalize stmt] }

/-- The function `SqliteDb::destroy` (Sqlite.cpp, lines 46-75).  Nothing in it
throws: it calls the console of the platform and the SQLite C API only. -/
def destroy (api : SqliteApi σ) (self : SqliteDb σ) : SqliteDb σ :=
  if self.isDestroyed_ then
    { self with calls := self.calls ++ [SqliteEvent.consoleLog "Database is already closed"] }
  else
    let self₁ : SqliteDb σ :=
      { self with
        isDestroyed_ := true
        calls := self.calls ++ [SqliteEvent.consoleLog "Closing database..."] }
    let list := destroy.collect (api.statements self₁.sqlite) []
    let self₂ := destroy.finalizeAll api list self₁
    let closed := api.sqlite3_close self₂.sqlite
    let closeResult := closed.2
    if closeResult ≠ SQLITE_OK then
      { self₂ with
        sqlite := closed.1
        calls := self₂.calls ++ [SqliteEvent.sqlite3_close closeResult,
          SqliteEvent.consoleError
            ("Failed to close sqlite database - " ++ api.sqlite3_errmsg closed.1)] }
    else
      { self₂ with
        sqlite := closed.1
        calls := self₂.calls ++ [SqliteEvent.sqlite3_close closeResult,
          SqliteEvent.consoleLog "Database closed."] }

end SqliteDb

/-! ## A small engine for running the functions on concrete payloads -/

/-- The state of the test engine: whether a transaction is open, the table
of compiled statements (a handle is an index; each entry is the SQL text and
the values bound to it), the executions of the open transaction and the
committed ones, each an SQL text with the values bound when it was stepped. -/
structure TestDb where
  active : Bool
  compiled : List (String × List Json)
  pending : List (String × List Json)
  committed : List (String × List Json)
  deriving DecidableEq

/-- An empty database with no open transaction. -/
def TestDb.empty : TestDb := ⟨false, [], [], []⟩

/-- An engine that records what is executed.  It rejects the SQL text
`"INSERT_WITH_BAD_SQL"` and a second `beginTransaction`. -/
def testEngine : Engine TestDb where
  beginTransaction := fun s =>
    if s.active then (s, .error "cannot start a transaction within a transaction")
    else ({ s with active := true }, .ok ())
  executeUpdate := fun sql args s =>
    if sql = "INSERT_WITH_BAD_SQL" then (s, .error "syntax error")
    else ({ s with pending := s.pending ++ [(sql, args)] }, .ok ())
  prepareQuery := fun sql s =>
    if sql = "INSERT_WITH_BAD_SQL" then (s, .error "syntax error")
    else ({ s with compiled := s.compiled ++ [(sql, [])] }, .ok s.compiled.length)
  executeUpdateStmt := fun stmt s =>
    match s.compiled.get? stmt with
    | none => (s, .error "bad statement handle")
    | some (sql, bound) => ({ s with pending := s.pending ++ [(sql, bound)] }, .ok ())
  sqlite3_reset := fun _ s => s
  sqlite3_clear_bindings := fun stmt s =>
    { s with compiled := s.compiled.modify (fun entry => (entry.1, [])) stmt }
  commit := fun s =>
    ({ s with active := false, pending := [], committed := s.committed ++ s.pending }, .ok ())
  rollback := fun s => { s with active := false, pending := [] }

/-- A connection whose state is its list of open statements and whose close
fails while a statement is still open. -/
def testApi : SqliteApi (List Stmt) where
  statements := fun s => s
  sqlite3_finalize := fun stmt s => s.erase stmt
  sqlite3_close := fun s => if s = [] then (s, 0) else (s, 5)
  sqlite3_errmsg := fun _ => "unable to close due to unfinalized statements"

/-- A connection on which `sqlite3_close` always fails. -/
def busyApi : SqliteApi (List Stmt) where
  statements := fun s => s
  sqlite3_finalize := fun stmt s => s.erase stmt
  sqlite3_close := fun s => (s, 5)
  sqlite3_errmsg := fun _ => "database is locked"

/-- The object as the constructor `SqliteDb::SqliteDb` (Sqlite.cpp, lines
22-44) leaves it when `sqlite3_open` succeeds, as far as `destroy` reads it:
`sqlite` is the connection opened.  The constructor does not assign
`isDestroyed_`, and Sqlite.h (line 22) declares it as `std::atomic<bool>
isDestroyed_;` with no initialiser, so the flag has the value its memory
happens to hold, here `indeterminate`. -/
def constructed {σ : Type} (sqlite : σ) (indeterminate : Bool) : SqliteDb σ :=
  ⟨sqlite, indeterminate, []⟩

/-- A live connection with the open statements 3, 1, 2, in the order of
enumeration. -/
def liveDb : SqliteDb (List Stmt) := ⟨[3, 1, 2], false, []⟩

/-! ## Predicates on traces -/

namespace Database

variable {σ : Type}

/-- A step made inside the loops: neither `beginTransaction`, `commit` nor
`rollback`. -/
def isStep (ev : Event) : Bool :=
  !ev.isBegin && !ev.isCommit && !ev.isRollback

/-- Every step of the list is a loop call that returned normally. -/
def Clean (evs : List Event) : Prop :=
  ∀ ev ∈ evs, ev.threw = none ∧ isStep ev = true

/-- The steps of a stretch of code that ended with the exception `e`: the
last step threw `e` (a call of the engine, or the decoder) and the ones
before it returned normally. -/
def Stopped (evs : List Event) (e : Err) : Prop :=
  ∃ pre ev, evs = pre ++ [ev] ∧ Clean pre ∧ ev.threw = some e ∧ isStep ev = true

/-- The state in which a recorded call leaves the engine when it is made in
state `s`.  An exception of the decoder leaves the engine as it is. -/
def applyEvent (E : Engine σ) : Event → σ → σ
  | .beginTransaction _, s => (E.beginTransaction s).1
  | .decode _, s => s
  | .executeUpdate sql args _, s => (E.executeUpdate sql args s).1
  | .prepareQuery sql _, s => (E.prepareQuery sql s).1
  | .executeUpdateStmt stmt _, s => (E.executeUpdateStmt stmt s).1
  | .sqlite3_reset stmt, s => E.sqlite3_reset stmt s
  | .sqlite3_clear_bindings stmt, s => E.sqlite3_clear_bindings stmt s
  | .commit _, s => (E.commit s).1
  | .rollback, s => E.rollback s

/-- The state of the engine after the calls of a trace, made one after the
other from state `s`. -/
def stateAfter (E : Engine σ) (s : σ) (evs : List Event) : σ :=
  evs.foldl (fun state ev => applyEvent E ev state) s

/-- The outcome `r` was reached from `w` by steps of the loops only, stopping
at the first exception; the engine went through exactly the recorded calls. -/
def Segment {α : Type} (E : Engine σ) (w : World σ) (r : Outcome σ α) : Prop :=
  ∃ evs, r.1.trace = w.trace ++ evs ∧ r.1.engine = stateAfter E w.engine evs ∧
    match r.2 with
    | .ok _ => Clean evs
    | .error e => Stopped evs e

/-- The `try` block of `batchJSON` before its `commit()`. -/
def batchJSON.decode (E : Engine σ) (jsiJson : Except Err Json) (w : World σ) :
    Outcome σ Unit :=
  match jsiJson with
  | .error e => decodeThrows e w
  | .ok (.arr operations) => batchJSON.operationsLoop E operations w
  | .ok _ => decodeThrows INCORRECT_TYPE w

/-- The frame shared by `batch` and `batchJSON`: `beginTransaction()`, then
inside the `try` the body and `commit()`, and `rollback()` with a rethrow in
the `catch`. -/
def transaction (E : Engine σ) (body : World σ → Outcome σ Unit) (w : World σ) :
    Outcome σ Unit :=
  match beginTransaction E w with
  | (w₁, .error e) => (w₁, .error e)
  | (w₁, .ok ()) =>
    match body w₁ with
    | (w₂, .error e) => (rollback E w₂, .error e)
    | (w₂, .ok ()) =>
      match commit E w₂ with
      | (w₃, .error e) => (rollback E w₃, .error e)
      | (w₃, .ok ()) => (w₃, .ok ())

/-- The four ways a run of the frame from state `s` can go, by its trace:
`beginTransaction` threw; everything returned; `commit` threw; a step of the
loops threw.  In each the engine went through exactly the recorded calls. -/
def RunShape (E : Engine σ) (s : σ) (r : Outcome σ Unit) : Prop :=
  r.1.engine = stateAfter E s r.1.trace ∧
  ((∃ e, r.2 = .error e ∧ r.1.trace = [Event.beginTransaction (some e)]) ∨
  (∃ body, Clean body ∧ r.2 = .ok () ∧
    r.1.trace = Event.beginTransaction none :: body ++ [Event.commit none]) ∨
  (∃ body e, Clean body ∧ r.2 = .error e ∧
    r.1.trace = Event.beginTransaction none :: body ++ [Event.commit (some e), Event.rollback]) ∨
  (∃ body ev e, Clean body ∧ ev.threw = some e ∧ isStep ev = true ∧ r.2 = .error e ∧
    r.1.trace = Event.beginTransaction none :: body ++ [ev, Event.rollback]))

/-- In the run `r`, decoding, compiling, binding or executing raised `e`: the
step `ev` of the trace is a step of the loops (an exception of the decoder, a
`prepareQuery`, an `executeUpdate`) and it threw `e`.  Such a step exists
only after `beginTransaction` succeeded. -/
def RaisedAt (r : Outcome σ Unit) (ev : Event) (e : Err) : Prop :=
  ev ∈ r.1.trace ∧ ev.threw = some e ∧ isStep ev = true

/-- The run raised `e`, and its trace is: `beginTransaction`, which
returned; steps of the loops that all returned; the step `ev`; `rollback`.
So `rollback` is called, right after `ev`, nothing is decoded or executed
after `ev`, and there is no `commit`. -/
def RolledBackAfter (r : Outcome σ Unit) (ev : Event) (e : Err) : Prop :=
  r.2 = .error e ∧
    ∃ body, r.1.trace = Event.beginTransaction none :: body ++ [ev, Event.rollback] ∧
      ∀ step ∈ body, step.threw = none ∧ step.isCommit = false ∧ step.isRollback = false ∧
        step.isBegin = false

/-- The operation-major flattening of a structured payload: every pair of
an operation's `sql` and one of its argument batches, operations in order
and, inside an operation, batches in order. -/
def flattened : List Operation → List (String × List Json)
  | [] => []
  | operation :: rest =>
    operation.argsBatches.map (fun args => (operation.sql, args)) ++ flattened rest

/-- Two operations agree on `sql` (index 2) and `argsBatches` (index 3). -/
def SameSqlAndArgs (a b : Operation) : Prop :=
  a.sql = b.sql ∧ a.argsBatches = b.argsBatches

/-- The calls `batchJSON` makes for the argument batches of one operation
when each returns normally: per batch, `executeUpdate(stmt)`,
`sqlite3_reset(stmt)`, `sqlite3_clear_bindings(stmt)`. -/
def streamedArgs (stmt : Stmt) : List (List Json) → List Event
  | [] => []
  | _ :: rest =>
    Event.executeUpdateStmt stmt none :: Event.sqlite3_reset stmt ::
      Event.sqlite3_clear_bindings stmt :: streamedArgs stmt rest

/-- The calls `batchJSON` makes for a list of operations when each returns
normally, `stmts` being the statements `prepareQuery` returned, one per
operation: `prepareQuery(sql)` and then the calls for the argument batches
on the statement it returned. -/
def streamedOperations : List Operation → List Stmt → List Event
  | operation :: operations, stmt :: stmts =>
    Event.prepareQuery operation.sql (.inr stmt) ::
      (streamedArgs stmt operation.argsBatches ++ streamedOperations operations stmts)
  | _, _ => []

/-- The value is an array. -/
def isArr : Json → Bool
  | .arr _ => true
  | _ => false

/-- The value is a string. -/
def isStr : Json → Bool
  | .str _ => true
  | _ => false

/-- An element of the document that `batchJSON` rejects before executing
anything of it: it is not an array, or its field 2 is there and is not a
string, or its field 3 is there and is not an array. -/
def headMalformed : Json → Bool
  | .arr fields =>
    (match fields.get? 2 with
      | some field => !isStr field
      | none => false) ||
    (match fields.get? 3 with
      | some field => !isArr field
      | none => false)
  | _ => true

/-- Scenario 1 of the specification as a structured payload: one operation
`INSERT INTO t(id) VALUES(?)` with the argument batches `["a"]` and `["b"]`. -/
def scenario1 : List Operation :=
  [⟨.num 0, .str "t", "INSERT INTO t(id) VALUES(?)", [[.str "a"], [.str "b"]]⟩]

/-- Scenario 1 with other values in the argument batches. -/
def scenario1OtherValues : List Operation :=
  [⟨.num 0, .str "t", "INSERT INTO t(id) VALUES(?)", [[.str "c", .num 7], []]⟩]

/-- Scenario 2 of the specification: an insert followed by an operation whose
SQL does not compile. -/
def scenario2 : List Operation :=
  [⟨.num 0, .str "t", "INSERT INTO t(id) VALUES(?)", [[.str "a"]]⟩,
   ⟨.num 0, .str "t", "INSERT_WITH_BAD_SQL", [[.str "b"]]⟩]

/-- A structured payload whose second operation is an array of three
elements: the read of index 3 (line 20) throws. -/
def jsiMissingArgsBatches : List (Except Err JsiOperation) :=
  [.ok (JsiOperation.ofOperation
      ⟨.num 0, .str "t", "INSERT INTO t(id) VALUES(?)", [[.str "a"]]⟩),
   .ok ⟨.ok "INSERT INTO t(id) VALUES(?)", .error "index 3 is out of range"⟩]

/-- A streamed payload whose only operation has the number 5 as second
element of `argsBatches`. -/
def malformedSecondBatch : Json :=
  .arr [.arr [.num 0, .str "t", .str "INSERT INTO t(id) VALUES(?)",
    .arr [.arr [.str "a"], .num 5]]]

/-- A streamed payload whose only operation has a string as `opType` and a
number as `table`. -/
def wrongShapeInFields01 : Json :=
  .arr [.arr [.str "create", .num 7, .str "INSERT INTO t(id) VALUES(?)",
    .arr [.arr [.str "a"]]]]

/-- A streamed payload whose second element is a number. -/
def malformedSecondOperation : Json :=
  .arr [encodeOperation ⟨.num 0, .str "t", "INSERT INTO t(id) VALUES(?)", [[.str "a"]]⟩,
    .num 5]

/-- The field-2 text and the elements of field 3 of an element of the
document that has both: an array of at least four elements whose field 2 is
a string and whose field 3 is an array.  An array of fewer than four elements
has no field 3. -/
def fields23 : Json → Option (String × List Json)
  | .arr (_ :: _ :: .str sql :: .arr argsBatches :: _) => some (sql, argsBatches)
  | _ => none

/-- The calls `batchJSON` makes for the elements of one `argsBatches` when
each returns normally: per element, `executeUpdate(stmt)`,
`sqlite3_reset(stmt)`, `sqlite3_clear_bindings(stmt)`. -/
def streamedBatches (stmt : Stmt) : List Json → List Event
  | [] => []
  | _ :: rest =>
    Event.executeUpdateStmt stmt none :: Event.sqlite3_reset stmt ::
      Event.sqlite3_clear_bindings stmt :: streamedBatches stmt rest

/-- The calls `batchJSON` makes for the elements of a document when each
returns normally, `stmts` being the statements `prepareQuery` returned, one
per element that has a field 3: for such an element, `prepareQuery` with its
field-2 text and then the calls for its `argsBatches` on the statement
returned; for an element without field 3, no call. -/
def streamedDocument : List Json → List Stmt → List Event
  | [], _ => []
  | operation :: rest, stmts =>
    match fields23 operation, stmts with
    | some (sql, argsBatches), stmt :: stmts' =>
      Event.prepareQuery sql (.inr stmt) ::
        (streamedBatches stmt argsBatches ++ streamedDocument rest stmts')
    | some _, [] => []
    | none, _ => streamedDocument rest stmts

/-- The call before an `executeUpdate(stmt)` is the `prepareQuery` that
returned `stmt`, or `sqlite3_clear_bindings(stmt)`. -/
def FollowsPrepareOrClear (previous : Option Event) (stmt : Stmt) : Prop :=
  (∃ sql, previous = some (Event.prepareQuery sql (.inr stmt))) ∨
    previous = some (Event.sqlite3_clear_bindings stmt)

/-- In the list of calls, which comes after the call `previous`, every
`executeUpdate(stmt)` comes right after the `prepareQuery` that returned
`stmt` or right after `sqlite3_clear_bindings(stmt)`. -/
def ExecutionsFollow : Option Event → List Event → Prop
  | _, [] => True
  | previous, ev :: evs =>
    (∀ stmt threw, ev = Event.executeUpdateStmt stmt threw →
      FollowsPrepareOrClear previous stmt) ∧
    ExecutionsFollow (some ev) evs

/-- In the list of calls, every `executeUpdate(stmt)` is followed at once by
`sqlite3_reset(stmt)` and `sqlite3_clear_bindings(stmt)`. -/
def ExecutionsCleared : List Event → Prop
  | [] => True
  | ev :: evs =>
    (∀ stmt threw, ev = Event.executeUpdateStmt stmt threw →
      ∃ rest, evs = Event.sqlite3_reset stmt :: Event.sqlite3_clear_bindings stmt :: rest) ∧
    ExecutionsCleared evs

/-- A streamed payload whose only operation has three elements: it has a
`sql` and no `argsBatches`. -/
def threeFieldOperation : Json :=
  .arr [.arr [.num 0, .str "t", .str "INSERT INTO t(id) VALUES(?)"]]

/-- The values bound to a statement of the test engine. -/
def testBound (s : TestDb) (stmt : Stmt) : List Json :=
  match s.compiled.get? stmt with
  | some (_, bound) => bound
  | none => []

end Database

end WatermelonDB

/-! ## Traces of the batch functions -/

namespace WatermelonDB

namespace Database

variable {σ : Type}

theorem clean_nil : Clean [] := by
  intro ev h; cases h

theorem clean_append {a b : List Event} (ha : Clean a) (hb : Clean b) : Clean (a ++ b) := by
  intro ev h
  rcases List.mem_append.1 h with h | h
  · exact ha ev h
  · exact hb ev h

theorem stopped_append {a b : List Event} {e : Err} (ha : Clean a) (hb : Stopped b e) :
    Stopped (a ++ b) e := by
  obtain ⟨pre, ev, rfl, hpre, hev, hstep⟩ := hb
  exact ⟨a ++ pre, ev, by simp, clean_append ha hpre, hev, hstep⟩

theorem stateAfter_append (E : Engine σ) (s : σ) (a b : List Event) :
    stateAfter E s (a ++ b) = stateAfter E (stateAfter E s a) b := by
  simp [stateAfter, List.foldl_append]

theorem segment_refl (E : Engine σ) (w : World σ) :
    Segment E w ((w, .ok ()) : Outcome σ Unit) :=
  ⟨[], by simp, rfl, clean_nil⟩

theorem segment_decodeThrows {α : Type} (E : Engine σ) (w : World σ) (e : Err) :
    Segment E w (decodeThrows e w : Outcome σ α) :=
  ⟨[Event.decode e], rfl, rfl, [], Event.decode e, rfl, clean_nil, rfl, rfl⟩

/-- Sequencing: a stretch that returned normally, followed by another one. -/
theorem segment_trans {α β : Type} {E : Engine σ} {w w' : World σ} {a : α}
    {r : Outcome σ β} (h₁ : Segment E w ((w', .ok a) : Outcome σ α)) (h₂ : Segment E w' r) :
    Segment E w r := by
  obtain ⟨evs₁, ht₁, hs₁, hc₁⟩ := h₁
  obtain ⟨evs₂, ht₂, hs₂, hc₂⟩ := h₂
  refine ⟨evs₁ ++ evs₂, ?_, ?_, ?_⟩
  · rw [ht₂, ht₁, List.append_assoc]
  · rw [hs₂, hs₁, stateAfter_append]
  · simp only at hc₁
    rcases h : r.2 with e | b
    · rw [h] at hc₂; exact stopped_append hc₁ hc₂
    · rw [h] at hc₂; exact clean_append hc₁ hc₂

theorem segment_executeUpdate (E : Engine σ) (sql : String) (args : List Json) (w : World σ) :
    Segment E w (executeUpdate E sql args w) := by
  refine ⟨[Event.executeUpdate sql args (Except.failed (E.executeUpdate sql args w.engine).2)],
    rfl, rfl, ?_⟩
  simp only [executeUpdate]
  rcases (E.executeUpdate sql args w.engine).2 with e | u
  · exact ⟨[], _, rfl, clean_nil, rfl, rfl⟩
  · intro ev h
    rw [List.mem_singleton] at h
    subst h
    exact ⟨rfl, rfl⟩

theorem segment_executeUpdateStmt (E : Engine σ) (stmt : Stmt) (w : World σ) :
    Segment E w (executeUpdateStmt E stmt w) := by
  refine ⟨[Event.executeUpdateStmt stmt (Except.failed (E.executeUpdateStmt stmt w.engine).2)],
    rfl, rfl, ?_⟩
  simp only [executeUpdateStmt]
  rcases (E.executeUpdateStmt stmt w.engine).2 with e | u
  · exact ⟨[], _, rfl, clean_nil, rfl, rfl⟩
  · intro ev h
    rw [List.mem_singleton] at h
    subst h
    exact ⟨rfl, rfl⟩

theorem segment_prepareQuery (E : Engine σ) (sql : String) (w : World σ) :
    Segment E w (prepareQuery E sql w) := by
  unfold prepareQuery
  dsimp only
  split
  · next e _ =>
    exact ⟨[Event.prepareQuery sql (.inl e)], rfl, rfl, [], _, rfl, clean_nil, rfl, rfl⟩
  · next stmt _ =>
    refine ⟨[Event.prepareQuery sql (.inr stmt)], rfl, rfl, ?_⟩
    intro ev h
    rw [List.mem_singleton] at h
    subst h
    exact ⟨rfl, rfl⟩

theorem segment_reset_clear (E : Engine σ) (stmt : Stmt) (w : World σ) :
    Segment E w ((sqlite3_clear_bindings E stmt (sqlite3_reset E stmt w), .ok ()) :
      Outcome σ Unit) := by
  refine ⟨[Event.sqlite3_reset stmt, Event.sqlite3_clear_bindings stmt], ?_, rfl, ?_⟩
  · simp [sqlite3_clear_bindings, sqlite3_reset]
  · intro ev h
    simp only [List.mem_cons, List.mem_singleton, List.not_mem_nil, or_false] at h
    rcases h with h | h <;> subst h <;> exact ⟨rfl, rfl⟩

theorem segment_batch_argsLoop (E : Engine σ) (sql : String) (argsBatches : List (List Json)) :
    ∀ w : World σ, Segment E w (batch.argsLoop E sql argsBatches w) := by
  induction argsBatches with
  | nil => intro w; exact segment_refl E w
  | cons args rest ih =>
    intro w
    have h := segment_executeUpdate E sql args w
    rcases hr : executeUpdate E sql args w with ⟨w', e | ⟨⟨⟩⟩⟩
    · simp only [batch.argsLoop, hr]
      rw [hr] at h; exact h
    · simp only [batch.argsLoop, hr]
      rw [hr] at h; exact segment_trans h (ih w')

theorem segment_batch_operationsLoop (E : Engine σ) (operations : List Operation) :
    ∀ w : World σ, Segment E w (batch.operationsLoop E operations w) := by
  induction operations with
  | nil => intro w; exact segment_refl E w
  | cons operation rest ih =>
    intro w
    have h := segment_batch_argsLoop E operation.sql operation.argsBatches w
    rcases hr : batch.argsLoop E operation.sql operation.argsBatches w with ⟨w', e | ⟨⟨⟩⟩⟩
    · simp only [batch.operationsLoop, hr]
      rw [hr] at h; exact h
    · simp only [batch.operationsLoop, hr]
      rw [hr] at h; exact segment_trans h (ih w')

theorem segment_batchJsi_argsLoop (E : Engine σ) (sql : String)
    (argsBatches : List (Except Err (List Json))) :
    ∀ w : World σ, Segment E w (batchJsi.argsLoop E sql argsBatches w) := by
  induction argsBatches with
  | nil => intro w; exact segment_refl E w
  | cons read rest ih =>
    intro w
    rcases read with e | args
    · exact segment_decodeThrows E w e
    · have h := segment_executeUpdate E sql args w
      rcases hr : executeUpdate E sql args w with ⟨w', e | ⟨⟨⟩⟩⟩
      · simp only [batchJsi.argsLoop, hr]
        rw [hr] at h; exact h
      · simp only [batchJsi.argsLoop, hr]
        rw [hr] at h; exact segment_trans h (ih w')

theorem segment_batchJsi_operationsLoop (E : Engine σ)
    (operations : List (Except Err JsiOperation)) :
    ∀ w : World σ, Segment E w (batchJsi.operationsLoop E operations w) := by
  induction operations with
  | nil => intro w; exact segment_refl E w
  | cons read rest ih =>
    intro w
    rcases read with e | operation
    · exact segment_decodeThrows E w e
    · rcases operation with ⟨sqlRead, argsRead⟩
      rcases sqlRead with e | sql
      · exact segment_decodeThrows E w e
      · rcases argsRead with e | argsBatches
        · exact segment_decodeThrows E w e
        · have h := segment_batchJsi_argsLoop E sql argsBatches w
          rcases hr : batchJsi.argsLoop E sql argsBatches w with ⟨w', e | ⟨⟨⟩⟩⟩
          · simp only [batchJsi.operationsLoop, hr]
            rw [hr] at h; exact h
          · simp only [batchJsi.operationsLoop, hr]
            rw [hr] at h; exact segment_trans h (ih w')

theorem segment_batchJSON_argsLoop (E : Engine σ) (stmt : Stmt) (argsBatches : List Json) :
    ∀ w : World σ, Segment E w (batchJSON.argsLoop E stmt argsBatches w) := by
  induction argsBatches with
  | nil => intro w; exact segment_refl E w
  | cons args rest ih =>
    intro w
    cases args with
    | arr items =>
      have h := segment_executeUpdateStmt E stmt w
      rcases hr : executeUpdateStmt E stmt w with ⟨w', e | ⟨⟨⟩⟩⟩
      · simp only [batchJSON.argsLoop, hr]
        rw [hr] at h; exact h
      · simp only [batchJSON.argsLoop, hr]
        rw [hr] at h
        exact segment_trans h (segment_trans (segment_reset_clear E stmt w') (ih _))
    | _ => exact segment_decodeThrows E w _

theorem segment_batchJSON_fieldsLoop (E : Engine σ) (fields : List Json) :
    ∀ (sql : String) (fieldIdx : Nat) (w : World σ),
      Segment E w (batchJSON.fieldsLoop E fields sql fieldIdx w) := by
  induction fields with
  | nil => intro sql fieldIdx w; exact segment_refl E w
  | cons field rest ih =>
    intro sql fieldIdx w
    unfold batchJSON.fieldsLoop
    by_cases h2 : fieldIdx = 2
    · rw [if_pos h2]
      cases field with
      | str v => exact ih _ _ _
      | _ => exact segment_decodeThrows E w _
    · rw [if_neg h2]
      by_cases h3 : fieldIdx = 3
      · rw [if_pos h3]
        cases field with
        | arr argsBatches =>
          have hp := segment_prepareQuery E sql w
          rcases hr : prepareQuery E sql w with ⟨w', e | stmt⟩
          · simp only [hr]
            rw [hr] at hp; exact hp
          · simp only [hr]
            rw [hr] at hp
            have ha := segment_batchJSON_argsLoop E stmt argsBatches w'
            rcases hr' : batchJSON.argsLoop E stmt argsBatches w' with ⟨w₂, e | ⟨⟨⟩⟩⟩
            · simp only [hr']
              rw [hr'] at ha; exact segment_trans hp ha
            · simp only [hr']
              rw [hr'] at ha; exact segment_trans hp (segment_trans ha (ih _ _ _))
        | _ => exact segment_decodeThrows E w _
      · rw [if_neg h3]
        exact ih _ _ _

theorem segment_batchJSON_operationsLoop (E : Engine σ) (operations : List Json) :
    ∀ w : World σ, Segment E w (batchJSON.operationsLoop E operations w) := by
  induction operations with
  | nil => intro w; exact segment_refl E w
  | cons operation rest ih =>
    intro w
    cases operation with
    | arr fields =>
      have h := segment_batchJSON_fieldsLoop E fields "" 0 w
      rcases hr : batchJSON.fieldsLoop E fields "" 0 w with ⟨w', e | ⟨⟨⟩⟩⟩
      · simp only [batchJSON.operationsLoop, hr]
        rw [hr] at h; exact h
      · simp only [batchJSON.operationsLoop, hr]
        rw [hr] at h; exact segment_trans h (ih w')
    | _ => exact segment_decodeThrows E w _

theorem segment_batchJSON_decode (E : Engine σ) (jsiJson : Except Err Json) (w : World σ) :
    Segment E w (batchJSON.decode E jsiJson w) := by
  rcases jsiJson with e | doc
  · exact segment_decodeThrows E w e
  · cases doc with
    | arr operations => exact segment_batchJSON_operationsLoop E operations w
    | _ => exact segment_decodeThrows E w _

theorem batch_eq_transaction (E : Engine σ) (operations : List Operation) (w : World σ) :
    batch E operations w = transaction E (batch.operationsLoop E operations) w := by
  unfold batch transaction batch.tryBlock
  rcases beginTransaction E w with ⟨w₁, e | ⟨⟨⟩⟩⟩
  · rfl
  · dsimp only
    rcases batch.operationsLoop E operations w₁ with ⟨w₂, e | ⟨⟨⟩⟩⟩ <;> rfl

theorem batchJsi_eq_transaction (E : Engine σ) (operations : List (Except Err JsiOperation))
    (w : World σ) :
    batchJsi E operations w = transaction E (batchJsi.operationsLoop E operations) w := by
  unfold batchJsi transaction batchJsi.tryBlock
  rcases beginTransaction E w with ⟨w₁, e | ⟨⟨⟩⟩⟩
  · rfl
  · dsimp only
    rcases batchJsi.operationsLoop E operations w₁ with ⟨w₂, e | ⟨⟨⟩⟩⟩ <;> rfl

theorem batchJSON_eq_transaction (E : Engine σ) (jsiJson : Except Err Json) (w : World σ) :
    batchJSON E jsiJson w = transaction E (batchJSON.decode E jsiJson) w := by
  unfold batchJSON transaction batchJSON.tryBlock batchJSON.decode
  rcases beginTransaction E w with ⟨w₁, e | ⟨⟨⟩⟩⟩
  · rfl
  · rcases jsiJson with e | doc
    · rfl
    · cases doc with
      | arr operations =>
        dsimp only
        rcases batchJSON.operationsLoop E operations w₁ with ⟨w₂, e | ⟨⟨⟩⟩⟩ <;> rfl
      | _ => rfl

theorem beginTransaction_world (E : Engine σ) (w w₁ : World σ) (r : Except Err Unit)
    (h : beginTransaction E w = (w₁, r)) :
    w₁ = ⟨applyEvent E (Event.beginTransaction (Except.failed r)) w.engine,
      w.trace ++ [Event.beginTransaction (Except.failed r)]⟩ := by
  simp only [beginTransaction, Prod.mk.injEq] at h
  obtain ⟨hw, he⟩ := h
  rw [← hw, he]; rfl

theorem commit_world (E : Engine σ) (w w₁ : World σ) (r : Except Err Unit)
    (h : commit E w = (w₁, r)) :
    w₁ = ⟨applyEvent E (Event.commit (Except.failed r)) w.engine,
      w.trace ++ [Event.commit (Except.failed r)]⟩ := by
  simp only [commit, Prod.mk.injEq] at h
  obtain ⟨hw, he⟩ := h
  rw [← hw, he]; rfl

theorem transaction_shape (E : Engine σ) (body : World σ → Outcome σ Unit)
    (hbody : ∀ w, Segment E w (body w)) (s : σ) :
    RunShape E s (transaction E body ⟨s, []⟩) := by
  unfold transaction
  rcases hb : beginTransaction E ⟨s, []⟩ with ⟨w₁, e | ⟨⟨⟩⟩⟩
  · have hw₁ := beginTransaction_world E _ _ _ hb
    subst hw₁
    exact ⟨rfl, Or.inl ⟨e, rfl, rfl⟩⟩
  · have hw₁ := beginTransaction_world E _ _ _ hb
    dsimp only
    have hseg := hbody w₁
    rcases hr : body w₁ with ⟨w₂, e | ⟨⟨⟩⟩⟩
    · rw [hr] at hseg
      obtain ⟨evs, ht, hs, pre, ev, rfl, hpre, hev, hstep⟩ := hseg
      simp only at ht hs
      subst hw₁
      refine ⟨?_, Or.inr (Or.inr (Or.inr ⟨pre, ev, e, hpre, hev, hstep, rfl, ?_⟩))⟩
      · simp only [rollback, ht, hs]
        simp [stateAfter, List.foldl_append, applyEvent, Except.failed]
      · simp [rollback, ht, Except.failed]
    · rw [hr] at hseg
      obtain ⟨evs, ht, hs, hc⟩ := hseg
      simp only at ht hs hc
      dsimp only
      rcases hcm : commit E w₂ with ⟨w₃, e | ⟨⟨⟩⟩⟩
      · have hw₃ := commit_world E _ _ _ hcm
        subst hw₃ hw₁
        refine ⟨?_, Or.inr (Or.inr (Or.inl ⟨evs, e, hc, rfl, ?_⟩))⟩
        · simp only [rollback, ht, hs]
          simp [stateAfter, List.foldl_append, applyEvent, Except.failed]
        · simp [rollback, ht, Except.failed]
      · have hw₃ := commit_world E _ _ _ hcm
        subst hw₃ hw₁
        refine ⟨?_, Or.inr (Or.inl ⟨evs, hc, rfl, ?_⟩)⟩
        · simp only [ht, hs]
          simp [stateAfter, List.foldl_append, applyEvent, Except.failed]
        · simp [ht, Except.failed]

theorem batch_shape (E : Engine σ) (operations : List Operation) (s : σ) :
    RunShape E s (batch E operations ⟨s, []⟩) := by
  rw [batch_eq_transaction]
  exact transaction_shape E _ (segment_batch_operationsLoop E operations) s

theorem batchJsi_shape (E : Engine σ) (operations : List (Except Err JsiOperation)) (s : σ) :
    RunShape E s (batchJsi E operations ⟨s, []⟩) := by
  rw [batchJsi_eq_transaction]
  exact transaction_shape E _ (segment_batchJsi_operationsLoop E operations) s

theorem batchJSON_shape (E : Engine σ) (jsiJson : Except Err Json) (s : σ) :
    RunShape E s (batchJSON E jsiJson ⟨s, []⟩) := by
  rw [batchJSON_eq_transaction]
  exact transaction_shape E _ (segment_batchJSON_decode E jsiJson) s

/-- On a well-shaped payload, where no read throws, `batchJsi` is `batch`. -/
theorem batchJsi_ofOperation (E : Engine σ) (operations : List Operation) (w : World σ) :
    batchJsi E (operations.map (fun operation => .ok (JsiOperation.ofOperation operation))) w
      = batch E operations w := by
  have hargs : ∀ (sql : String) (argsBatches : List (List Json)) (w : World σ),
      batchJsi.argsLoop E sql (argsBatches.map Except.ok) w
        = batch.argsLoop E sql argsBatches w := by
    intro sql argsBatches
    induction argsBatches with
    | nil => intro w; rfl
    | cons args rest ih =>
      intro w
      simp only [List.map_cons, batchJsi.argsLoop, batch.argsLoop]
      rcases executeUpdate E sql args w with ⟨w', e | ⟨⟨⟩⟩⟩
      · rfl
      · exact ih w'
  have hops : ∀ w : World σ,
      batchJsi.operationsLoop E
          (operations.map (fun operation => .ok (JsiOperation.ofOperation operation))) w
        = batch.operationsLoop E operations w := by
    induction operations with
    | nil => intro w; rfl
    | cons operation rest ih =>
      intro w
      simp only [List.map_cons, batchJsi.operationsLoop, batch.operationsLoop,
        JsiOperation.ofOperation, hargs]
      rcases batch.argsLoop E operation.sql operation.argsBatches w with ⟨w', e | ⟨⟨⟩⟩⟩
      · rfl
      · exact ih w'
  rw [batchJsi_eq_transaction, batch_eq_transaction]
  unfold transaction
  rcases beginTransaction E w with ⟨w₁, e | ⟨⟨⟩⟩⟩
  · rfl
  · dsimp only
    rw [hops]

theorem rolledBackAfter_of_shape {E : Engine σ} {s : σ} {r : Outcome σ Unit} {ev : Event}
    {e : Err} (hs : RunShape E s r) (hr : RaisedAt r ev e) : RolledBackAfter r ev e := by
  obtain ⟨hmem, hthrew, hstep⟩ := hr
  have hclean : ∀ {body : List Event}, Clean body → ev ∈ body → False := by
    intro body hc h
    rw [(hc ev h).1] at hthrew; cases hthrew
  rcases hs.2 with ⟨e₀, _, ht⟩ | ⟨body, hc, _, ht⟩ | ⟨body, e₀, hc, _, ht⟩ |
    ⟨body, ev₀, e₀, hc, hev₀, hstep₀, he₀, ht⟩
  · -- `beginTransaction` threw
    exfalso
    rw [ht, List.mem_singleton] at hmem
    subst hmem
    simp [isStep, Event.isBegin] at hstep
  · -- everything returned
    exfalso
    rw [ht] at hmem
    simp only [List.mem_cons, List.mem_append, List.mem_singleton, List.not_mem_nil,
      or_false] at hmem
    rcases hmem with (h | h) | h
    · subst h; simp [isStep, Event.isBegin] at hstep
    · exact hclean hc h
    · subst h; simp [isStep, Event.isCommit] at hstep
  · -- `commit` threw
    exfalso
    rw [ht] at hmem
    simp only [List.mem_cons, List.mem_append, List.mem_singleton, List.not_mem_nil,
      or_false] at hmem
    rcases hmem with (h | h) | h | h
    · subst h; simp [isStep, Event.isBegin] at hstep
    · exact hclean hc h
    · subst h; simp [isStep, Event.isCommit] at hstep
    · subst h; simp [isStep, Event.isRollback] at hstep
  · -- a step of the loops threw
    have hev : ev = ev₀ := by
      rw [ht] at hmem
      simp only [List.mem_cons, List.mem_append, List.mem_singleton, List.not_mem_nil,
        or_false] at hmem
      rcases hmem with (h | h) | h | h
      · subst h; simp [isStep, Event.isBegin] at hstep
      · exact (hclean hc h).elim
      · exact h
      · subst h; simp [isStep, Event.isRollback] at hstep
    subst hev
    have he : e₀ = e := by
      rw [hev₀] at hthrew; exact Option.some.inj hthrew
    subst he
    refine ⟨he₀, body, ht, ?_⟩
    intro step hmem'
    have h := hc step hmem'
    simp only [isStep, Bool.and_eq_true, Bool.not_eq_true'] at h
    exact ⟨h.1, h.2.1.2, h.2.2, h.2.1.1⟩

/-- Claim C1: In `Database::batch` (on a payload whose reads may throw, and
on a well-shaped one) and in `Database::batchJSON`, for every engine, every
starting state and every payload: when decoding, compiling, binding or
executing raises an error `e` at some step after `beginTransaction` (an
exception of the decoder, a `prepareQuery` or an `executeUpdate` that threw
`e`), then the call raises that same `e`, `rollback` is called right after
that step and ends the trace, so that nothing is decoded or executed after
the failure, every step before it returned normally, and `commit` is not
called. -/
theorem C1_failure_rolls_back_and_rethrows (E : Engine σ) (s : σ) (ev : Event) (e : Err) :
    (∀ operations : List (Except Err JsiOperation),
      RaisedAt (batchJsi E operations ⟨s, []⟩) ev e →
        RolledBackAfter (batchJsi E operations ⟨s, []⟩) ev e) ∧
    (∀ operations : List Operation,
      RaisedAt (batch E operations ⟨s, []⟩) ev e →
        RolledBackAfter (batch E operations ⟨s, []⟩) ev e) ∧
    (∀ jsiJson : Except Err Json,
      RaisedAt (batchJSON E jsiJson ⟨s, []⟩) ev e →
        RolledBackAfter (batchJSON E jsiJson ⟨s, []⟩) ev e) :=
  ⟨fun operations h => rolledBackAfter_of_shape (batchJsi_shape E operations s) h,
   fun operations h => rolledBackAfter_of_shape (batch_shape E operations s) h,
   fun jsiJson h => rolledBackAfter_of_shape (batchJSON_shape E jsiJson s) h⟩

/-- Claim C1, witness: on the engine that records what is executed, a
structured payload whose second operation has no index 3, so that the read of
line 20 throws; scenario 2, where `executeUpdate` throws on the second
operation; and a streamed payload whose second element is not an array. -/
theorem C1_failure_rolls_back_and_rethrows_witness :
    (RaisedAt (batchJsi testEngine jsiMissingArgsBatches ⟨TestDb.empty, []⟩)
        (Event.decode "index 3 is out of range") "index 3 is out of range" ∧
      RolledBackAfter (batchJsi testEngine jsiMissingArgsBatches ⟨TestDb.empty, []⟩)
        (Event.decode "index 3 is out of range") "index 3 is out of range") ∧
    (RaisedAt (batch testEngine scenario2 ⟨TestDb.empty, []⟩)
        (Event.executeUpdate "INSERT_WITH_BAD_SQL" [.str "b"] (some "syntax error"))
        "syntax error" ∧
      RolledBackAfter (batch testEngine scenario2 ⟨TestDb.empty, []⟩)
        (Event.executeUpdate "INSERT_WITH_BAD_SQL" [.str "b"] (some "syntax error"))
        "syntax error") ∧
    (RaisedAt (batchJSON testEngine (.ok malformedSecondOperation) ⟨TestDb.empty, []⟩)
        (Event.decode INCORRECT_TYPE) INCORRECT_TYPE ∧
      RolledBackAfter (batchJSON testEngine (.ok malformedSecondOperation)
        ⟨TestDb.empty, []⟩) (Event.decode INCORRECT_TYPE) INCORRECT_TYPE) :=
  have h₁ : RaisedAt (batchJsi testEngine jsiMissingArgsBatches ⟨TestDb.empty, []⟩)
      (Event.decode "index 3 is out of range") "index 3 is out of range" :=
    ⟨by decide, rfl, rfl⟩
  have h₂ : RaisedAt (batch testEngine scenario2 ⟨TestDb.empty, []⟩)
      (Event.executeUpdate "INSERT_WITH_BAD_SQL" [.str "b"] (some "syntax error"))
      "syntax error" :=
    ⟨by decide, rfl, rfl⟩
  have h₃ : RaisedAt (batchJSON testEngine (.ok malformedSecondOperation)
      ⟨TestDb.empty, []⟩) (Event.decode INCORRECT_TYPE) INCORRECT_TYPE :=
    ⟨by decide, rfl, rfl⟩
  ⟨⟨h₁, (C1_failure_rolls_back_and_rethrows testEngine TestDb.empty _ _).1
      jsiMissingArgsBatches h₁⟩,
   ⟨h₂, (C1_failure_rolls_back_and_rethrows testEngine TestDb.empty _ _).2.1
      scenario2 h₂⟩,
   ⟨h₃, (C1_failure_rolls_back_and_rethrows testEngine TestDb.empty _ _).2.2
      (.ok malformedSecondOperation) h₃⟩⟩

/-! ## The structured path -/

theorem batch_argsLoop_ok (E : Engine σ) (sql : String) (argsBatches : List (List Json)) :
    ∀ w w' : World σ, batch.argsLoop E sql argsBatches w = (w', .ok ()) →
      w'.trace = w.trace ++ argsBatches.map (fun args => Event.executeUpdate sql args none) := by
  induction argsBatches with
  | nil =>
    intro w w' h
    simp only [batch.argsLoop, Prod.mk.injEq] at h
    rw [← h.1]; simp
  | cons args rest ih =>
    intro w w' h
    rcases hr : executeUpdate E sql args w with ⟨w₁, e | ⟨⟨⟩⟩⟩
    · simp only [batch.argsLoop, hr, Prod.mk.injEq] at h
      cases h.2
    · simp only [batch.argsLoop, hr] at h
      rw [ih w₁ w' h]
      simp only [executeUpdate, Prod.mk.injEq] at hr
      obtain ⟨hw, he⟩ := hr
      rw [← hw, he]
      simp [Except.failed]

theorem batch_operationsLoop_ok (E : Engine σ) (operations : List Operation) :
    ∀ w w' : World σ, batch.operationsLoop E operations w = (w', .ok ()) →
      w'.trace = w.trace ++
        (flattened operations).map (fun p => Event.executeUpdate p.1 p.2 none) := by
  induction operations with
  | nil =>
    intro w w' h
    simp only [batch.operationsLoop, Prod.mk.injEq] at h
    rw [← h.1]; simp [flattened]
  | cons operation rest ih =>
    intro w w' h
    rcases hr : batch.argsLoop E operation.sql operation.argsBatches w with ⟨w₁, e | ⟨⟨⟩⟩⟩
    · simp only [batch.operationsLoop, hr, Prod.mk.injEq] at h
      cases h.2
    · simp only [batch.operationsLoop, hr] at h
      rw [ih w₁ w' h, batch_argsLoop_ok E _ _ w w₁ hr]
      simp [flattened, Function.comp_def]

theorem batch_operationsLoop_congr (E : Engine σ) {ops₁ ops₂ : List Operation}
    (h : List.Forall₂ SameSqlAndArgs ops₁ ops₂) :
    ∀ w : World σ, batch.operationsLoop E ops₁ w = batch.operationsLoop E ops₂ w := by
  induction h with
  | nil => intro w; rfl
  | cons hab _ ih =>
    intro w
    simp only [batch.operationsLoop, hab.1, hab.2]
    rcases batch.argsLoop E _ _ w with ⟨w₁, e | ⟨⟨⟩⟩⟩
    · rfl
    · exact ih w₁

/-- Claim C2: For every engine, starting state and structured payload on which
the call returns normally (no step fails), the calls `Database::batch` makes
are exactly: `beginTransaction` once, then `executeUpdate(sql, args)` for
each pair of the operation-major flattening of the payload, in order, each
once and each returning normally, then `commit` once; there is no `rollback`. -/
theorem C2_batch_call_sequence (E : Engine σ) (s : σ) (operations : List Operation)
    (hok : (batch E operations ⟨s, []⟩).2 = .ok ()) :
    (batch E operations ⟨s, []⟩).1.trace =
      Event.beginTransaction none ::
        ((flattened operations).map (fun p => Event.executeUpdate p.1 p.2 none)
          ++ [Event.commit none]) := by
  rw [batch_eq_transaction] at hok ⊢
  unfold transaction at hok ⊢
  rcases hb : beginTransaction E ⟨s, []⟩ with ⟨w₁, e | ⟨⟨⟩⟩⟩
  · rw [hb] at hok; cases hok
  · rw [hb] at hok
    dsimp only at hok ⊢
    rcases hl : batch.operationsLoop E operations w₁ with ⟨w₂, e | ⟨⟨⟩⟩⟩
    · rw [hl] at hok; cases hok
    · rw [hl] at hok
      dsimp only at hok ⊢
      rcases hc : commit E w₂ with ⟨w₃, e | ⟨⟨⟩⟩⟩
      · rw [hc] at hok; cases hok
      · dsimp only
        simp only [commit, Prod.mk.injEq] at hc
        obtain ⟨hw₃, he₃⟩ := hc
        simp only [beginTransaction, Prod.mk.injEq] at hb
        obtain ⟨hw₁, he₁⟩ := hb
        rw [← hw₃, he₃, batch_operationsLoop_ok E operations w₁ w₂ hl, ← hw₁, he₁]
        simp [Except.failed]

/-- Claim C2, witness: Scenario 1 on the test engine. -/
theorem C2_batch_call_sequence_witness :
    (batch testEngine scenario1 ⟨TestDb.empty, []⟩).2 = .ok () ∧
    (batch testEngine scenario1 ⟨TestDb.empty, []⟩).1.trace =
      Event.beginTransaction none ::
        ((flattened scenario1).map (fun p => Event.executeUpdate p.1 p.2 none)
          ++ [Event.commit none]) :=
  ⟨by decide, C2_batch_call_sequence testEngine TestDb.empty scenario1 (by decide)⟩

/-- Claim C9: `Database::batch` does not depend on `opType` or `table`: for
every engine and starting world, two structured payloads of the same length
whose operations agree pairwise on `sql` and `argsBatches` give the same run:
the same calls with the same results, the same final engine state and the
same outcome (normal return, or the same exception after `rollback`). -/
theorem C9_batch_ignores_opType_and_table (E : Engine σ) (w : World σ)
    (ops₁ ops₂ : List Operation) (h : List.Forall₂ SameSqlAndArgs ops₁ ops₂) :
    batch E ops₁ w = batch E ops₂ w := by
  rw [batch_eq_transaction, batch_eq_transaction]
  unfold transaction
  rcases beginTransaction E w with ⟨w₁, e | ⟨⟨⟩⟩⟩
  · rfl
  · dsimp only
    rw [batch_operationsLoop_congr E h w₁]

/-- Claim C9, witness: Scenario 1 against the same operation with another
`opType` and another `table`. -/
theorem C9_batch_ignores_opType_and_table_witness :
    List.Forall₂ SameSqlAndArgs scenario1
      [⟨.str "markAsDeleted", .null, "INSERT INTO t(id) VALUES(?)",
        [[.str "a"], [.str "b"]]⟩] ∧
    batch testEngine scenario1 ⟨TestDb.empty, []⟩ =
      batch testEngine
        [⟨.str "markAsDeleted", .null, "INSERT INTO t(id) VALUES(?)",
          [[.str "a"], [.str "b"]]⟩] ⟨TestDb.empty, []⟩ :=
  ⟨List.Forall₂.cons ⟨rfl, rfl⟩ List.Forall₂.nil,
   C9_batch_ignores_opType_and_table testEngine ⟨TestDb.empty, []⟩ scenario1 _
     (List.Forall₂.cons ⟨rfl, rfl⟩ List.Forall₂.nil)⟩

/-! ## The streamed path -/

theorem batchJSON_argsLoop_append (E : Engine σ) (stmt : Stmt) (l₁ l₂ : List Json) :
    ∀ w : World σ, batchJSON.argsLoop E stmt (l₁ ++ l₂) w =
      match batchJSON.argsLoop E stmt l₁ w with
      | (w', .error e) => (w', .error e)
      | (w', .ok ()) => batchJSON.argsLoop E stmt l₂ w' := by
  induction l₁ with
  | nil => intro w; rfl
  | cons args rest ih =>
    intro w
    cases args with
    | arr items =>
      simp only [List.cons_append, batchJSON.argsLoop]
      rcases executeUpdateStmt E stmt w with ⟨w₁, e | ⟨⟨⟩⟩⟩
      · rfl
      · exact ih _
    | _ => rfl

theorem batchJSON_operationsLoop_append (E : Engine σ) (l₁ l₂ : List Json) :
    ∀ w : World σ, batchJSON.operationsLoop E (l₁ ++ l₂) w =
      match batchJSON.operationsLoop E l₁ w with
      | (w', .error e) => (w', .error e)
      | (w', .ok ()) => batchJSON.operationsLoop E l₂ w' := by
  induction l₁ with
  | nil => intro w; rfl
  | cons operation rest ih =>
    intro w
    cases operation with
    | arr fields =>
      simp only [List.cons_append, batchJSON.operationsLoop]
      rcases batchJSON.fieldsLoop E fields "" 0 w with ⟨w₁, e | ⟨⟨⟩⟩⟩
      · rfl
      · exact ih _
    | _ => rfl

/-- The loop over well-formed argument batches: either it returns and made
exactly the expected calls, or one of its calls threw. -/
theorem batchJSON_argsLoop_encoded (E : Engine σ) (stmt : Stmt)
    (argsBatches : List (List Json)) :
    ∀ w : World σ,
      match batchJSON.argsLoop E stmt (argsBatches.map Json.arr) w with
      | (w', .ok ()) => w'.trace = w.trace ++ streamedArgs stmt argsBatches
      | (w', .error e) => ∃ ev ∈ w'.trace, ev.isDecode = false ∧ ev.threw = some e := by
  induction argsBatches with
  | nil => intro w; simp [batchJSON.argsLoop, streamedArgs]
  | cons args rest ih =>
    intro w
    simp only [List.map_cons, batchJSON.argsLoop]
    rcases hr : executeUpdateStmt E stmt w with ⟨w₁, e | ⟨⟨⟩⟩⟩
    · simp only [executeUpdateStmt, Prod.mk.injEq] at hr
      obtain ⟨hw, he⟩ := hr
      refine ⟨Event.executeUpdateStmt stmt (some e), ?_, rfl, rfl⟩
      rw [← hw, he]; simp [Except.failed]
    · dsimp only
      have h := ih (sqlite3_clear_bindings E stmt (sqlite3_reset E stmt w₁))
      rcases hr' : batchJSON.argsLoop E stmt (rest.map Json.arr)
        (sqlite3_clear_bindings E stmt (sqlite3_reset E stmt w₁)) with ⟨w₂, e | ⟨⟨⟩⟩⟩
      · rw [hr'] at h; exact h
      · rw [hr'] at h
        dsimp only at h ⊢
        rw [h]
        simp only [executeUpdateStmt, Prod.mk.injEq] at hr
        obtain ⟨hw, he⟩ := hr
        rw [← hw, he]
        simp [sqlite3_clear_bindings, sqlite3_reset, streamedArgs, Except.failed]

/-- One well-formed operation: `prepareQuery(sql)` once, then the loop over
its argument batches on the statement returned. -/
theorem batchJSON_fieldsLoop_encoded (E : Engine σ) (operation : Operation) (w : World σ) :
    batchJSON.fieldsLoop E
        [operation.opType, operation.table, .str operation.sql,
          .arr (operation.argsBatches.map Json.arr)] "" 0 w =
      match prepareQuery E operation.sql w with
      | (w', .error e) => (w', .error e)
      | (w', .ok stmt) => batchJSON.argsLoop E stmt (operation.argsBatches.map Json.arr) w' := by
  simp only [batchJSON.fieldsLoop]
  simp only [Nat.zero_add, Nat.reduceAdd, OfNat.zero_ne_ofNat, OfNat.ofNat_ne_one,
    if_false, if_true, Nat.reduceEqDiff]
  rcases prepareQuery E operation.sql w with ⟨w₁, e | stmt⟩
  · rfl
  · dsimp only
    rcases batchJSON.argsLoop E stmt (operation.argsBatches.map Json.arr) w₁ with
      ⟨w₂, e | ⟨⟨⟩⟩⟩ <;> rfl

theorem beginTransaction_trace (E : Engine σ) (w w₁ : World σ) (r : Except Err Unit)
    (h : beginTransaction E w = (w₁, r)) :
    w₁.trace = w.trace ++ [Event.beginTransaction (Except.failed r)] := by
  simp only [beginTransaction, Prod.mk.injEq] at h
  obtain ⟨hw, he⟩ := h
  rw [← hw, he]

theorem commit_trace (E : Engine σ) (w w₁ : World σ) (r : Except Err Unit)
    (h : commit E w = (w₁, r)) :
    w₁.trace = w.trace ++ [Event.commit (Except.failed r)] := by
  simp only [commit, Prod.mk.injEq] at h
  obtain ⟨hw, he⟩ := h
  rw [← hw, he]

theorem prepareQuery_trace_ok (E : Engine σ) (sql : String) (w w₁ : World σ) (stmt : Stmt)
    (h : prepareQuery E sql w = (w₁, .ok stmt)) :
    w₁.trace = w.trace ++ [Event.prepareQuery sql (.inr stmt)] := by
  unfold prepareQuery at h
  dsimp only at h
  split at h
  · simp only [Prod.mk.injEq] at h; cases h.2
  · simp only [Prod.mk.injEq, Except.ok.injEq] at h
    rw [← h.1, h.2]

theorem prepareQuery_trace_error (E : Engine σ) (sql : String) (w w₁ : World σ) (e : Err)
    (h : prepareQuery E sql w = (w₁, .error e)) :
    w₁.trace = w.trace ++ [Event.prepareQuery sql (.inl e)] := by
  unfold prepareQuery at h
  dsimp only at h
  split at h
  · simp only [Prod.mk.injEq, Except.error.injEq] at h
    rw [← h.1, h.2]
  · simp only [Prod.mk.injEq] at h; cases h.2

/-- The loop over well-formed operations: either it returns and made exactly
the expected calls, or one of its calls threw. -/
theorem batchJSON_operationsLoop_encoded (E : Engine σ) (operations : List Operation) :
    ∀ w : World σ,
      match batchJSON.operationsLoop E (operations.map encodeOperation) w with
      | (w', .ok ()) =>
        ∃ stmts : List Stmt, stmts.length = operations.length ∧
          w'.trace = w.trace ++ streamedOperations operations stmts
      | (w', .error e) => ∃ ev ∈ w'.trace, ev.isDecode = false ∧ ev.threw = some e := by
  induction operations with
  | nil => intro w; exact ⟨[], rfl, by simp [streamedOperations]⟩
  | cons operation rest ih =>
    intro w
    simp only [List.map_cons, encodeOperation, batchJSON.operationsLoop,
      batchJSON_fieldsLoop_encoded]
    rcases hp : prepareQuery E operation.sql w with ⟨w₁, e | stmt⟩
    · dsimp only
      exact ⟨Event.prepareQuery operation.sql (.inl e),
        by rw [prepareQuery_trace_error E _ _ _ _ hp]; simp, rfl, rfl⟩
    · dsimp only
      have ha := batchJSON_argsLoop_encoded E stmt operation.argsBatches w₁
      rcases hr : batchJSON.argsLoop E stmt (operation.argsBatches.map Json.arr) w₁ with
        ⟨w₂, e | ⟨⟨⟩⟩⟩
      · rw [hr] at ha; exact ha
      · rw [hr] at ha
        dsimp only at ha ⊢
        have hi := ih w₂
        rcases hr' : batchJSON.operationsLoop E (rest.map encodeOperation) w₂ with
          ⟨w₃, e | ⟨⟨⟩⟩⟩
        · rw [hr'] at hi; exact hi
        · rw [hr'] at hi
          obtain ⟨stmts, hlen, ht⟩ := hi
          refine ⟨stmt :: stmts, by simp [hlen], ?_⟩
          dsimp only at ht ⊢
          rw [ht, ha, prepareQuery_trace_ok E _ _ _ _ hp]
          simp [streamedOperations]

theorem batchJSON_arr (E : Engine σ) (operations : List Json) (w : World σ) :
    batchJSON E (.ok (.arr operations)) w =
      match beginTransaction E w with
      | (w₁, .error e) => (w₁, .error e)
      | (w₁, .ok ()) =>
        match batchJSON.operationsLoop E operations w₁ with
        | (w₂, .error e) => (rollback E w₂, .error e)
        | (w₂, .ok ()) =>
          match commit E w₂ with
          | (w₃, .error e) => (rollback E w₃, .error e)
          | (w₃, .ok ()) => (w₃, .ok ()) := by
  rw [batchJSON_eq_transaction]; rfl

theorem batchJSON_argsLoop_not_arr (E : Engine σ) (stmt : Stmt) (bad : Json)
    (after : List Json) (hbad : isArr bad = false) (w : World σ) :
    batchJSON.argsLoop E stmt (bad :: after) w = decodeThrows INCORRECT_TYPE w := by
  cases bad <;> first | rfl | simp [isArr] at hbad

theorem batchJSON_fieldsLoop_headMalformed (E : Engine σ) (fields : List Json)
    (hbad : headMalformed (.arr fields) = true) (w : World σ) :
    batchJSON.fieldsLoop E fields "" 0 w = decodeThrows INCORRECT_TYPE w := by
  rcases fields with _ | ⟨f₀, _ | ⟨f₁, _ | ⟨f₂, rest⟩⟩⟩
  · simp [headMalformed] at hbad
  · simp [headMalformed] at hbad
  · simp [headMalformed] at hbad
  · simp only [batchJSON.fieldsLoop]
    simp only [Nat.zero_add, Nat.reduceAdd, OfNat.zero_ne_ofNat, OfNat.ofNat_ne_one,
      if_false, if_true, Nat.reduceEqDiff]
    cases f₂ with
    | str v =>
      rcases rest with _ | ⟨f₃, more⟩
      · simp [headMalformed, isStr] at hbad
      · simp only [batchJSON.fieldsLoop]
        simp only [Nat.reduceAdd, Nat.reduceEqDiff, if_false, if_true]
        cases f₃ <;> first | rfl | simp [headMalformed, isStr, isArr] at hbad
    | _ => rfl

theorem batchJSON_operationsLoop_headMalformed (E : Engine σ) (bad : Json) (rest : List Json)
    (hbad : headMalformed bad = true) (w : World σ) :
    batchJSON.operationsLoop E (bad :: rest) w = decodeThrows INCORRECT_TYPE w := by
  cases bad with
  | arr fields =>
    simp only [batchJSON.operationsLoop, batchJSON_fieldsLoop_headMalformed E fields hbad w]
    rfl
  | _ => rfl

theorem batchJSON_fieldsLoop_four (E : Engine σ) (opType table : Json) (sql : String)
    (argsBatches more : List Json) (w : World σ) :
    batchJSON.fieldsLoop E (opType :: table :: .str sql :: .arr argsBatches :: more) "" 0 w =
      match prepareQuery E sql w with
      | (w', .error e) => (w', .error e)
      | (w', .ok stmt) =>
        match batchJSON.argsLoop E stmt argsBatches w' with
        | (w₂, .error e) => (w₂, .error e)
        | (w₂, .ok ()) => batchJSON.fieldsLoop E more sql 4 w₂ := by
  simp only [batchJSON.fieldsLoop]
  simp only [Nat.zero_add, Nat.reduceAdd, OfNat.zero_ne_ofNat, OfNat.ofNat_ne_one,
    if_false, if_true, Nat.reduceEqDiff]

theorem batchJSON_argsLoop_ok (E : Engine σ) (stmt : Stmt) (argsBatches : List Json) :
    ∀ w w' : World σ, batchJSON.argsLoop E stmt argsBatches w = (w', .ok ()) →
      w'.trace = w.trace ++ streamedBatches stmt argsBatches := by
  induction argsBatches with
  | nil =>
    intro w w' h
    simp only [batchJSON.argsLoop, Prod.mk.injEq] at h
    rw [← h.1]; simp [streamedBatches]
  | cons args rest ih =>
    intro w w' h
    cases args with
    | arr items =>
      simp only [batchJSON.argsLoop] at h
      rcases hr : executeUpdateStmt E stmt w with ⟨w₁, e | ⟨⟨⟩⟩⟩
      · rw [hr] at h
        simp only [Prod.mk.injEq] at h
        cases h.2
      · rw [hr] at h
        dsimp only at h
        rw [ih _ _ h]
        simp only [executeUpdateStmt, Prod.mk.injEq] at hr
        obtain ⟨hw, he⟩ := hr
        rw [← hw, he]
        simp [sqlite3_clear_bindings, sqlite3_reset, streamedBatches, Except.failed]
    | _ =>
      simp only [batchJSON.argsLoop, decodeThrows, Prod.mk.injEq] at h
      cases h.2

theorem batchJSON_fieldsLoop_skip (E : Engine σ) (fields : List Json) :
    ∀ (sql : String) (fieldIdx : Nat) (w : World σ), 4 ≤ fieldIdx →
      batchJSON.fieldsLoop E fields sql fieldIdx w = (w, .ok ()) := by
  induction fields with
  | nil => intro sql fieldIdx w _; rfl
  | cons field rest ih =>
    intro sql fieldIdx w h
    unfold batchJSON.fieldsLoop
    rw [if_neg (by omega), if_neg (by omega)]
    exact ih _ _ _ (by omega)

/-- One element of the document, decoded and executed without error: with a
field 3, `prepareQuery` once and then the calls for its `argsBatches`; with
fewer than four elements, no call. -/
theorem batchJSON_fieldsLoop_ok (E : Engine σ) (fields : List Json) (w w' : World σ)
    (h : batchJSON.fieldsLoop E fields "" 0 w = (w', .ok ())) :
    match fields23 (.arr fields) with
    | some (sql, argsBatches) =>
      ∃ stmt, w'.trace = w.trace ++
        Event.prepareQuery sql (.inr stmt) :: streamedBatches stmt argsBatches
    | none => w'.trace = w.trace := by
  rcases fields with _ | ⟨f₀, _ | ⟨f₁, _ | ⟨f₂, rest⟩⟩⟩
  · simp only [batchJSON.fieldsLoop, Prod.mk.injEq] at h
    simp [fields23, ← h.1]
  · simp only [batchJSON.fieldsLoop] at h
    simp only [Nat.zero_add, OfNat.zero_ne_ofNat, if_false, Prod.mk.injEq] at h
    simp [fields23, ← h.1]
  · simp only [batchJSON.fieldsLoop] at h
    simp only [Nat.zero_add, Nat.reduceAdd, OfNat.zero_ne_ofNat, OfNat.ofNat_ne_one,
      if_false, Nat.reduceEqDiff, Prod.mk.injEq] at h
    simp [fields23, ← h.1]
  · simp only [batchJSON.fieldsLoop] at h
    simp only [Nat.zero_add, Nat.reduceAdd, OfNat.zero_ne_ofNat, OfNat.ofNat_ne_one,
      if_false, if_true, Nat.reduceEqDiff] at h
    cases f₂ with
    | str sql =>
      rcases rest with _ | ⟨f₃, more⟩
      · simp only [batchJSON.fieldsLoop, Prod.mk.injEq] at h
        simp [fields23, ← h.1]
      · simp only [batchJSON.fieldsLoop] at h
        simp only [Nat.reduceAdd, Nat.reduceEqDiff, if_false, if_true] at h
        cases f₃ with
        | arr argsBatches =>
          dsimp only at h
          rcases hp : prepareQuery E sql w with ⟨w₁, e | stmt⟩
          · rw [hp] at h
            simp only [Prod.mk.injEq] at h
            cases h.2
          · rw [hp] at h
            dsimp only at h
            rcases ha : batchJSON.argsLoop E stmt argsBatches w₁ with ⟨w₂, e | ⟨⟨⟩⟩⟩
            · rw [ha] at h
              simp only [Prod.mk.injEq] at h
              cases h.2
            · rw [ha] at h
              dsimp only at h
              rw [batchJSON_fieldsLoop_skip E more sql 4 w₂ (Nat.le_refl 4)] at h
              simp only [Prod.mk.injEq, and_true] at h
              subst h
              refine ⟨stmt, ?_⟩
              rw [batchJSON_argsLoop_ok E stmt argsBatches w₁ w₂ ha,
                prepareQuery_trace_ok E _ _ _ _ hp]
              simp
        | _ =>
          simp only [decodeThrows, Prod.mk.injEq] at h
          cases h.2
    | _ =>
      simp only [decodeThrows, Prod.mk.injEq] at h
      cases h.2

theorem batchJSON_operationsLoop_ok (E : Engine σ) (operations : List Json) :
    ∀ w w' : World σ, batchJSON.operationsLoop E operations w = (w', .ok ()) →
      ∃ stmts : List Stmt, stmts.length = (operations.filterMap fields23).length ∧
        w'.trace = w.trace ++ streamedDocument operations stmts := by
  induction operations with
  | nil =>
    intro w w' h
    simp only [batchJSON.operationsLoop, Prod.mk.injEq] at h
    exact ⟨[], rfl, by rw [← h.1]; simp [streamedDocument]⟩
  | cons operation rest ih =>
    intro w w' h
    cases operation with
    | arr fields =>
      simp only [batchJSON.operationsLoop] at h
      rcases hf : batchJSON.fieldsLoop E fields "" 0 w with ⟨w₁, e | ⟨⟨⟩⟩⟩
      · rw [hf] at h
        simp only [Prod.mk.injEq] at h
        cases h.2
      · rw [hf] at h
        dsimp only at h
        obtain ⟨stmts, hlen, ht⟩ := ih w₁ w' h
        have hone := batchJSON_fieldsLoop_ok E fields w w₁ hf
        rcases h23 : fields23 (.arr fields) with _ | ⟨sql, argsBatches⟩
        · rw [h23] at hone
          dsimp only at hone
          refine ⟨stmts, by simp [List.filterMap_cons, h23, hlen], ?_⟩
          rw [ht, hone]
          simp [streamedDocument, h23]
        · rw [h23] at hone
          obtain ⟨stmt, hone⟩ := hone
          refine ⟨stmt :: stmts, by simp [List.filterMap_cons, h23, hlen], ?_⟩
          rw [ht, hone]
          simp [streamedDocument, h23]
    | _ =>
      simp only [batchJSON.operationsLoop, decodeThrows, Prod.mk.injEq] at h
      cases h.2

theorem executionsFollow_split (stmt : Stmt) (threw : Option Err) (after : List Event) :
    ∀ (before : List Event) (previous : Option Event),
      ExecutionsFollow previous (before ++ Event.executeUpdateStmt stmt threw :: after) →
        FollowsPrepareOrClear (before.getLast?.or previous) stmt := by
  intro before
  induction before with
  | nil =>
    intro previous h
    simpa using h.1 stmt threw rfl
  | cons b bs ih =>
    intro previous h
    have h' := ih (some b) h.2
    have heq : (b :: bs).getLast?.or previous = bs.getLast?.or (some b) := by
      rw [List.getLast?_cons]
      cases bs.getLast? <;> rfl
    rw [heq]; exact h'

theorem executionsFollow_batches (stmt : Stmt) (tail : List Event)
    (htail : ∀ previous, FollowsPrepareOrClear (some previous) stmt →
      ExecutionsFollow (some previous) tail) :
    ∀ (argsBatches : List Json) (previous : Event),
      FollowsPrepareOrClear (some previous) stmt →
        ExecutionsFollow (some previous) (streamedBatches stmt argsBatches ++ tail) := by
  intro argsBatches
  induction argsBatches with
  | nil => intro previous h; exact htail previous h
  | cons args rest ih =>
    intro previous h
    refine ⟨?_, ?_, ?_, ih _ (Or.inr rfl)⟩
    · intro stmt' threw heq
      cases heq
      exact h
    · intro stmt' threw heq; cases heq
    · intro stmt' threw heq; cases heq

theorem executionsFollow_document (tail : List Event)
    (htail : ∀ previous, ExecutionsFollow previous tail) :
    ∀ (operations : List Json) (stmts : List Stmt) (previous : Option Event),
      ExecutionsFollow previous (streamedDocument operations stmts ++ tail) := by
  intro operations
  induction operations with
  | nil => intro stmts previous; exact htail previous
  | cons operation rest ih =>
    intro stmts previous
    rcases h23 : fields23 operation with _ | ⟨sql, argsBatches⟩
    · simp only [streamedDocument, h23]
      exact ih stmts previous
    · rcases stmts with _ | ⟨stmt, stmts'⟩
      · simp only [streamedDocument, h23]
        exact htail previous
      · simp only [streamedDocument, h23, List.cons_append, List.append_assoc]
        refine ⟨?_, executionsFollow_batches stmt _ (fun p _ => ih stmts' (some p)) _ _
          (Or.inl ⟨sql, rfl⟩)⟩
        intro stmt' threw heq; cases heq

theorem executionsCleared_split (stmt : Stmt) (threw : Option Err) (after : List Event) :
    ∀ before : List Event,
      ExecutionsCleared (before ++ Event.executeUpdateStmt stmt threw :: after) →
        ∃ rest, after =
          Event.sqlite3_reset stmt :: Event.sqlite3_clear_bindings stmt :: rest := by
  intro before
  induction before with
  | nil => intro h; exact h.1 stmt threw rfl
  | cons b bs ih => intro h; exact ih h.2

theorem executionsCleared_batches (stmt : Stmt) (tail : List Event)
    (htail : ExecutionsCleared tail) :
    ∀ argsBatches : List Json, ExecutionsCleared (streamedBatches stmt argsBatches ++ tail) := by
  intro argsBatches
  induction argsBatches with
  | nil => exact htail
  | cons args rest ih =>
    refine ⟨?_, ?_, ?_, ih⟩
    · intro stmt' threw heq
      cases heq
      exact ⟨_, rfl⟩
    · intro stmt' threw heq; cases heq
    · intro stmt' threw heq; cases heq

theorem executionsCleared_document (tail : List Event) (htail : ExecutionsCleared tail) :
    ∀ (operations : List Json) (stmts : List Stmt),
      ExecutionsCleared (streamedDocument operations stmts ++ tail) := by
  intro operations
  induction operations with
  | nil => intro stmts; exact htail
  | cons operation rest ih =>
    intro stmts
    rcases h23 : fields23 operation with _ | ⟨sql, argsBatches⟩
    · simp only [streamedDocument, h23]
      exact ih stmts
    · rcases stmts with _ | ⟨stmt, stmts'⟩
      · simp only [streamedDocument, h23]
        exact htail
      · simp only [streamedDocument, h23, List.cons_append, List.append_assoc]
        exact ⟨fun stmt' threw heq => (by cases heq),
          executionsCleared_batches stmt _ (ih stmts') _⟩

theorem stateAfter_keeps_unbound (E : Engine σ) (bound : σ → Stmt → List Json) (stmt : Stmt) :
    ∀ (evs : List Event) (state : σ),
      (∀ ev ∈ evs, ∀ (state : σ) (stmt : Stmt),
        bound state stmt = [] → bound (applyEvent E ev state) stmt = []) →
      bound state stmt = [] → bound (stateAfter E state evs) stmt = [] := by
  intro evs
  induction evs with
  | nil => intro state _ h; exact h
  | cons ev rest ih =>
    intro state hframe h
    exact ih (applyEvent E ev state)
      (fun ev' hmem => hframe ev' (List.mem_cons_of_mem _ hmem))
      (hframe ev (List.mem_cons_self _ _) state stmt h)

/-- Claim C5, counterexample: on the engine that records what is executed,
the payload whose only operation is `[0, "t", "INSERT INTO t(id) VALUES(?)"]`
decodes and executes without error, and `prepareQuery` is not called for that
operation: the calls are `beginTransaction` and `commit`. -/
theorem C5_counterexample :
    (batchJSON testEngine (.ok threeFieldOperation) ⟨TestDb.empty, []⟩).2 = .ok () ∧
    (batchJSON testEngine (.ok threeFieldOperation) ⟨TestDb.empty, []⟩).1.trace =
      [Event.beginTransaction none, Event.commit none] := by
  decide

/-- Claim C5, amended: for every engine, every starting state and every
streamed payload on which `Database::batchJSON` returns normally, (1) the
calls made are exactly `beginTransaction`; then for each operation that has
a field 3, in order, one `prepareQuery` with the operation's field-2 text
and, for each element of its `argsBatches`, `executeUpdate(stmt)`,
`sqlite3_reset(stmt)`, `sqlite3_clear_bindings(stmt)` on the statement this
`prepareQuery` returned, and for an operation without field 3 no call; then
`commit`; (2) the engine went through exactly these calls; (3) with `bound`
the values bound to a statement in an engine state, and
`sqlite3_clear_bindings(stmt)` leaving no value bound to `stmt`, every
`executeUpdate(stmt)` other than the first after its `prepareQuery` is made
in a state in which no value is bound to `stmt`: no bound value of one
execution is present at the next; (4) when in addition no call of the trace
binds a value, this holds for every `executeUpdate(stmt)` that comes after
another `executeUpdate(stmt)`, also in a later operation that compiles to the
same statement. -/
theorem C5_batchJSON_prepares_once_and_clears (E : Engine σ)
    (bound : σ → Stmt → List Json)
    (hclear : ∀ (stmt : Stmt) (state : σ), bound (E.sqlite3_clear_bindings stmt state) stmt = [])
    (s : σ) (operations : List Json)
    (hok : (batchJSON E (.ok (.arr operations)) ⟨s, []⟩).2 = .ok ()) :
    (∃ stmts : List Stmt, stmts.length = (operations.filterMap fields23).length ∧
      (batchJSON E (.ok (.arr operations)) ⟨s, []⟩).1.trace =
        Event.beginTransaction none ::
          (streamedDocument operations stmts ++ [Event.commit none])) ∧
    (batchJSON E (.ok (.arr operations)) ⟨s, []⟩).1.engine =
      stateAfter E s (batchJSON E (.ok (.arr operations)) ⟨s, []⟩).1.trace ∧
    (∀ (before : List Event) (stmt : Stmt) (threw : Option Err) (after : List Event),
      (batchJSON E (.ok (.arr operations)) ⟨s, []⟩).1.trace =
          before ++ Event.executeUpdateStmt stmt threw :: after →
        (∃ sql, before.getLast? = some (Event.prepareQuery sql (.inr stmt))) ∨
          bound (stateAfter E s before) stmt = []) ∧
    ((∀ ev ∈ (batchJSON E (.ok (.arr operations)) ⟨s, []⟩).1.trace,
        ∀ (state : σ) (stmt : Stmt),
          bound state stmt = [] → bound (applyEvent E ev state) stmt = []) →
      ∀ (before : List Event) (stmt : Stmt) (threw : Option Err) (after : List Event),
        (batchJSON E (.ok (.arr operations)) ⟨s, []⟩).1.trace =
            before ++ Event.executeUpdateStmt stmt threw :: after →
          (∃ earlier, Event.executeUpdateStmt stmt earlier ∈ before) →
            bound (stateAfter E s before) stmt = []) := by
  have hshape := (batchJSON_shape E (.ok (.arr operations)) s).1
  have htrace : ∃ stmts : List Stmt,
      stmts.length = (operations.filterMap fields23).length ∧
      (batchJSON E (.ok (.arr operations)) ⟨s, []⟩).1.trace =
        Event.beginTransaction none ::
          (streamedDocument operations stmts ++ [Event.commit none]) := by
    rw [batchJSON_arr] at hok ⊢
    rcases hb : beginTransaction E ⟨s, []⟩ with ⟨w₁, e | ⟨⟨⟩⟩⟩
    · rw [hb] at hok; cases hok
    · rw [hb] at hok
      dsimp only at hok ⊢
      rcases hr : batchJSON.operationsLoop E operations w₁ with ⟨w₂, e | ⟨⟨⟩⟩⟩
      · rw [hr] at hok; cases hok
      · rw [hr] at hok
        dsimp only at hok ⊢
        obtain ⟨stmts, hlen, ht⟩ := batchJSON_operationsLoop_ok E operations w₁ w₂ hr
        rcases hc : commit E w₂ with ⟨w₃, e | ⟨⟨⟩⟩⟩
        · rw [hc] at hok; cases hok
        · refine ⟨stmts, hlen, ?_⟩
          dsimp only
          rw [commit_trace E _ _ _ hc, ht, beginTransaction_trace E _ _ _ hb]
          simp [Except.failed]
  refine ⟨htrace, hshape, ?_, ?_⟩
  · obtain ⟨stmts, _, ht⟩ := htrace
    intro before stmt threw after hsplit
    have hfollow : ExecutionsFollow none
        (before ++ Event.executeUpdateStmt stmt threw :: after) := by
      rw [← hsplit, ht]
      refine ⟨fun stmt' threw' heq => (by cases heq), ?_⟩
      refine executionsFollow_document _ ?_ operations stmts _
      intro previous
      exact ⟨fun stmt' threw' heq => (by cases heq), trivial⟩
    have hlast := executionsFollow_split stmt threw after before none hfollow
    rw [Option.or_none] at hlast
    rcases hlast with hprep | hcl
    · exact Or.inl hprep
    · right
      obtain ⟨init, rfl⟩ := List.getLast?_eq_some_iff.1 hcl
      rw [stateAfter_append]
      exact hclear stmt _
  · obtain ⟨stmts, _, ht⟩ := htrace
    intro hframe before stmt threw after hsplit hearlier
    obtain ⟨earlier, hmem⟩ := hearlier
    obtain ⟨b₁, b₂, rfl⟩ := List.append_of_mem hmem
    have hcleared : ExecutionsCleared
        (b₁ ++ Event.executeUpdateStmt stmt earlier ::
          (b₂ ++ Event.executeUpdateStmt stmt threw :: after)) := by
      have : b₁ ++ Event.executeUpdateStmt stmt earlier ::
          (b₂ ++ Event.executeUpdateStmt stmt threw :: after) =
          (b₁ ++ Event.executeUpdateStmt stmt earlier :: b₂) ++
            Event.executeUpdateStmt stmt threw :: after := by simp
      rw [this, ← hsplit, ht]
      have hcommit : ExecutionsCleared [Event.commit none] :=
        ⟨fun stmt' threw' heq => (by cases heq), trivial⟩
      exact ⟨fun stmt' threw' heq => (by cases heq),
        executionsCleared_document _ hcommit operations stmts⟩
    obtain ⟨rest, hrest⟩ := executionsCleared_split stmt earlier _ b₁ hcleared
    rcases b₂ with _ | ⟨x, _ | ⟨y, b₃⟩⟩
    · simp at hrest
    · simp at hrest
    · simp only [List.cons_append, List.cons.injEq] at hrest
      obtain ⟨hx, hy, _⟩ := hrest
      subst hx hy
      have hbefore : b₁ ++ Event.executeUpdateStmt stmt earlier ::
          Event.sqlite3_reset stmt :: Event.sqlite3_clear_bindings stmt :: b₃ =
          (b₁ ++ [Event.executeUpdateStmt stmt earlier, Event.sqlite3_reset stmt]) ++
            [Event.sqlite3_clear_bindings stmt] ++ b₃ := by simp
      rw [hbefore, stateAfter_append, stateAfter_append]
      refine stateAfter_keeps_unbound E bound stmt b₃ _ ?_ (hclear stmt _)
      intro ev hev
      refine hframe ev ?_
      rw [hsplit]
      simp only [List.mem_append, List.mem_cons]
      exact Or.inl (Or.inr (Or.inr (Or.inr (Or.inr hev))))

theorem testEngine_clear (stmt : Stmt) (state : TestDb) :
    testBound (testEngine.sqlite3_clear_bindings stmt state) stmt = [] := by
  simp only [testBound, testEngine, List.get?_eq_getElem?, List.getElem?_modify_eq]
  cases state.compiled[stmt]? <;> rfl

theorem testEngine_keeps_unbound (ev : Event) (state : TestDb) (stmt : Stmt)
    (h : testBound state stmt = []) :
    testBound (applyEvent testEngine ev state) stmt = [] := by
  cases ev with
  | beginTransaction threw =>
    simp only [applyEvent, testEngine]
    split <;> exact h
  | decode threw => exact h
  | executeUpdate sql args threw =>
    simp only [applyEvent, testEngine]
    split <;> exact h
  | prepareQuery sql result =>
    simp only [applyEvent, testEngine]
    split
    · exact h
    · simp only [testBound, List.get?_eq_getElem?] at h ⊢
      by_cases hlt : stmt < state.compiled.length
      · rw [List.getElem?_append_left hlt]; exact h
      · rw [List.getElem?_append_right (Nat.le_of_not_lt hlt)]
        rcases hidx : stmt - state.compiled.length with _ | k
        · simp
        · simp
  | executeUpdateStmt other threw =>
    simp only [applyEvent, testEngine]
    split <;> exact h
  | sqlite3_reset other => exact h
  | sqlite3_clear_bindings other =>
    simp only [applyEvent, testEngine, testBound, List.get?_eq_getElem?,
      List.getElem?_modify] at h ⊢
    rcases hget : state.compiled[stmt]? with _ | ⟨sql, values⟩
    · simp
    · rw [hget] at h
      simp only at h
      subst h
      by_cases hsame : other = stmt <;> simp [hsame]
  | commit threw => exact h
  | rollback => exact h

/-- Claim C5, amended, witness: scenario 1, streamed, on the engine that
records what is executed, whose `sqlite3_clear_bindings` empties the values
bound to the statement and whose other calls bind nothing.  The second
`executeUpdate` on statement 0 is made in a state with no value bound. -/
theorem C5_batchJSON_prepares_once_and_clears_witness :
    (∀ (stmt : Stmt) (state : TestDb),
      testBound (testEngine.sqlite3_clear_bindings stmt state) stmt = []) ∧
    (batchJSON testEngine (.ok (.arr (scenario1.map encodeOperation)))
      ⟨TestDb.empty, []⟩).2 = .ok () ∧
    (batchJSON testEngine (.ok (.arr (scenario1.map encodeOperation)))
      ⟨TestDb.empty, []⟩).1.trace =
        [Event.beginTransaction none,
          Event.prepareQuery "INSERT INTO t(id) VALUES(?)" (.inr 0),
          Event.executeUpdateStmt 0 none, Event.sqlite3_reset 0,
          Event.sqlite3_clear_bindings 0,
          Event.executeUpdateStmt 0 none, Event.sqlite3_reset 0,
          Event.sqlite3_clear_bindings 0, Event.commit none] ∧
    (∃ earlier, Event.executeUpdateStmt 0 earlier ∈
      [Event.beginTransaction none,
        Event.prepareQuery "INSERT INTO t(id) VALUES(?)" (.inr 0),
        Event.executeUpdateStmt 0 none, Event.sqlite3_reset 0,
        Event.sqlite3_clear_bindings 0]) ∧
    testBound (stateAfter testEngine TestDb.empty
      [Event.beginTransaction none,
        Event.prepareQuery "INSERT INTO t(id) VALUES(?)" (.inr 0),
        Event.executeUpdateStmt 0 none, Event.sqlite3_reset 0,
        Event.sqlite3_clear_bindings 0]) 0 = [] :=
  ⟨testEngine_clear, by decide, by decide, ⟨none, by decide⟩,
    (C5_batchJSON_prepares_once_and_clears testEngine testBound testEngine_clear
      TestDb.empty (scenario1.map encodeOperation) (by decide)).2.2.2
      (fun ev _ state stmt h => testEngine_keeps_unbound ev state stmt h)
      [Event.beginTransaction none,
        Event.prepareQuery "INSERT INTO t(id) VALUES(?)" (.inr 0),
        Event.executeUpdateStmt 0 none, Event.sqlite3_reset 0,
        Event.sqlite3_clear_bindings 0] 0 none
      [Event.sqlite3_reset 0, Event.sqlite3_clear_bindings 0, Event.commit none]
      (by decide) ⟨none, by decide⟩⟩

/-- Claim C6, counterexample: On the test engine: (1) with the number 5 as
second element of `argsBatches`, the call raises the decode error, yet the
first argument batch of that same operation was executed before; (2) with a
string as `opType` and a number as `table`, the call does not fail at all: it
executes the insert and commits. -/
theorem C6_counterexample :
    ((batchJSON testEngine (.ok malformedSecondBatch) ⟨TestDb.empty, []⟩).2 =
        .error INCORRECT_TYPE ∧
      (batchJSON testEngine (.ok malformedSecondBatch) ⟨TestDb.empty, []⟩).1.trace =
        [Event.beginTransaction none,
          Event.prepareQuery "INSERT INTO t(id) VALUES(?)" (.inr 0),
          Event.executeUpdateStmt 0 none, Event.sqlite3_reset 0,
          Event.sqlite3_clear_bindings 0, Event.decode INCORRECT_TYPE, Event.rollback]) ∧
    ((batchJSON testEngine (.ok wrongShapeInFields01) ⟨TestDb.empty, []⟩).2 = .ok () ∧
      (batchJSON testEngine (.ok wrongShapeInFields01) ⟨TestDb.empty, []⟩).1.trace =
        [Event.beginTransaction none,
          Event.prepareQuery "INSERT INTO t(id) VALUES(?)" (.inr 0),
          Event.executeUpdateStmt 0 none, Event.sqlite3_reset 0,
          Event.sqlite3_clear_bindings 0, Event.commit none]) := by
  decide

/-- Claim C6, amended: In `Database::batchJSON`, for a payload whose
operations before the malformed one are well-formed, and a run in which no
engine call throws (the only exception in the trace is the decoder's): (1) when an element of the document is not an array, or
its field 2 is not a string, or its field 3 is not an array, the call raises
the decode error, and the calls made are those of the operations before it
followed by `rollback`: nothing of the offending operation is compiled or
executed; (2) when an element of `argsBatches` is not an array, the call
raises the decode error after `prepareQuery` and after executing each
argument batch that stands before the malformed element, and then calls
`rollback`; nothing that stands after the malformed element is executed. -/
theorem C6_decode_error_stops_at_malformed_element (E : Engine σ) (s : σ)
    (operations : List Operation) (rest : List Json) :
    (∀ bad : Json, headMalformed bad = true →
      (∀ ev ∈ (batchJSON E (.ok (.arr (operations.map encodeOperation ++ bad :: rest)))
          ⟨s, []⟩).1.trace, ev.isDecode = false → ev.threw = none) →
      (batchJSON E (.ok (.arr (operations.map encodeOperation ++ bad :: rest)))
          ⟨s, []⟩).2 = .error INCORRECT_TYPE ∧
      ∃ stmts : List Stmt, stmts.length = operations.length ∧
        (batchJSON E (.ok (.arr (operations.map encodeOperation ++ bad :: rest)))
          ⟨s, []⟩).1.trace =
          Event.beginTransaction none ::
            (streamedOperations operations stmts ++
              [Event.decode INCORRECT_TYPE, Event.rollback])) ∧
    (∀ (opType table : Json) (sql : String) (before : List (List Json)) (bad : Json)
        (after more : List Json), isArr bad = false →
      (∀ ev ∈ (batchJSON E (.ok (.arr (operations.map encodeOperation ++
          .arr (opType :: table :: .str sql ::
            .arr (before.map Json.arr ++ bad :: after) :: more) :: rest)))
          ⟨s, []⟩).1.trace, ev.isDecode = false → ev.threw = none) →
      (batchJSON E (.ok (.arr (operations.map encodeOperation ++
          .arr (opType :: table :: .str sql ::
            .arr (before.map Json.arr ++ bad :: after) :: more) :: rest)))
          ⟨s, []⟩).2 = .error INCORRECT_TYPE ∧
      ∃ (stmts : List Stmt) (stmt : Stmt), stmts.length = operations.length ∧
        (batchJSON E (.ok (.arr (operations.map encodeOperation ++
          .arr (opType :: table :: .str sql ::
            .arr (before.map Json.arr ++ bad :: after) :: more) :: rest)))
          ⟨s, []⟩).1.trace =
          Event.beginTransaction none ::
            (streamedOperations operations stmts ++
              Event.prepareQuery sql (.inr stmt) ::
                (streamedArgs stmt before ++
                  [Event.decode INCORRECT_TYPE, Event.rollback]))) := by
  constructor
  · intro bad hbad
    rw [batchJSON_arr]
    rcases hb : beginTransaction E ⟨s, []⟩ with ⟨w₁, e | ⟨⟨⟩⟩⟩
    · intro hno
      have := hno (Event.beginTransaction (some e))
        (by dsimp only; rw [beginTransaction_trace E _ _ _ hb]; simp [Except.failed]) rfl
      simp [Event.threw] at this
    · dsimp only
      rw [batchJSON_operationsLoop_append]
      have hl := batchJSON_operationsLoop_encoded E operations w₁
      rcases hr : batchJSON.operationsLoop E (operations.map encodeOperation) w₁ with
        ⟨w₂, e | ⟨⟨⟩⟩⟩
      · rw [hr] at hl
        intro hno
        obtain ⟨ev, hmem, hdec, hthrew⟩ := hl
        have := hno ev (by simp only [rollback]; exact List.mem_append_left _ hmem) hdec
        rw [hthrew] at this; cases this
      · rw [hr] at hl
        obtain ⟨stmts, hlen, ht⟩ := hl
        dsimp only at ht ⊢
        rw [batchJSON_operationsLoop_headMalformed E bad rest hbad w₂]
        intro _
        refine ⟨rfl, stmts, hlen, ?_⟩
        simp only [rollback, decodeThrows]
        rw [ht, beginTransaction_trace E _ _ _ hb]
        simp [Except.failed]
  · intro opType table sql before bad after more hbad
    rw [batchJSON_arr]
    rcases hb : beginTransaction E ⟨s, []⟩ with ⟨w₁, e | ⟨⟨⟩⟩⟩
    · intro hno
      have := hno (Event.beginTransaction (some e))
        (by dsimp only; rw [beginTransaction_trace E _ _ _ hb]; simp [Except.failed]) rfl
      simp [Event.threw] at this
    · dsimp only
      rw [batchJSON_operationsLoop_append]
      have hl := batchJSON_operationsLoop_encoded E operations w₁
      rcases hr : batchJSON.operationsLoop E (operations.map encodeOperation) w₁ with
        ⟨w₂, e | ⟨⟨⟩⟩⟩
      · rw [hr] at hl
        intro hno
        obtain ⟨ev, hmem, hdec, hthrew⟩ := hl
        have := hno ev (by simp only [rollback]; exact List.mem_append_left _ hmem) hdec
        rw [hthrew] at this; cases this
      · rw [hr] at hl
        obtain ⟨stmts, hlen, ht⟩ := hl
        dsimp only at ht ⊢
        simp only [batchJSON.operationsLoop, batchJSON_fieldsLoop_four,
          batchJSON_argsLoop_append]
        rcases hp : prepareQuery E sql w₂ with ⟨w₃, e | stmt⟩
        · intro hno
          have := hno (Event.prepareQuery sql (.inl e))
            (by simp only [rollback]; rw [prepareQuery_trace_error E _ _ _ _ hp]; simp) rfl
          simp [Event.threw] at this
        · dsimp only
          have ha := batchJSON_argsLoop_encoded E stmt before w₃
          rcases hr' : batchJSON.argsLoop E stmt (before.map Json.arr) w₃ with
            ⟨w₄, e | ⟨⟨⟩⟩⟩
          · rw [hr'] at ha
            intro hno
            obtain ⟨ev, hmem, hdec, hthrew⟩ := ha
            have := hno ev (by simp only [rollback]; exact List.mem_append_left _ hmem) hdec
            rw [hthrew] at this; cases this
          · rw [hr'] at ha
            dsimp only at ha ⊢
            rw [batchJSON_argsLoop_not_arr E stmt bad after hbad w₄]
            intro _
            refine ⟨rfl, stmts, stmt, hlen, ?_⟩
            simp only [rollback, decodeThrows]
            rw [ha, prepareQuery_trace_ok E _ _ _ _ hp, ht, beginTransaction_trace E _ _ _ hb]
            simp [Except.failed]

/-- Claim C6, amended, witness: On the test engine: a document whose second
element is the number 5, after one well-formed operation; and an operation
whose `argsBatches` is `[["a"], 5]`. -/
theorem C6_decode_error_stops_at_malformed_element_witness :
    (headMalformed (.num 5) = true ∧
      (∀ ev ∈ (batchJSON testEngine (.ok (.arr ((scenario1.map encodeOperation) ++
          .num 5 :: []))) ⟨TestDb.empty, []⟩).1.trace, ev.isDecode = false → ev.threw = none) ∧
      (batchJSON testEngine (.ok (.arr ((scenario1.map encodeOperation) ++
          .num 5 :: []))) ⟨TestDb.empty, []⟩).2 = .error INCORRECT_TYPE) ∧
    (isArr (.num 5) = false ∧
      (∀ ev ∈ (batchJSON testEngine (.ok (.arr (([] : List Operation).map encodeOperation ++
          .arr (.num 0 :: .str "t" :: .str "INSERT INTO t(id) VALUES(?)" ::
            .arr ([[Json.str "a"]].map Json.arr ++ .num 5 :: []) :: []) :: [])))
          ⟨TestDb.empty, []⟩).1.trace, ev.isDecode = false → ev.threw = none) ∧
      (batchJSON testEngine (.ok (.arr (([] : List Operation).map encodeOperation ++
          .arr (.num 0 :: .str "t" :: .str "INSERT INTO t(id) VALUES(?)" ::
            .arr ([[Json.str "a"]].map Json.arr ++ .num 5 :: []) :: []) :: [])))
          ⟨TestDb.empty, []⟩).2 = .error INCORRECT_TYPE) :=
  ⟨⟨rfl, by decide,
    ((C6_decode_error_stops_at_malformed_element testEngine TestDb.empty scenario1 []).1
      (.num 5) rfl (by decide)).1⟩,
   ⟨rfl, by decide,
    ((C6_decode_error_stops_at_malformed_element testEngine TestDb.empty [] []).2
      (.num 0) (.str "t") "INSERT INTO t(id) VALUES(?)" [[.str "a"]] (.num 5) [] [] rfl
      (by decide)).1⟩⟩

/-- Claim C4, evaluation at the failing input: For scenario 1, streamed, the
calls on the test engine are `prepareQuery` and twice `executeUpdate(stmt)`,
`sqlite3_reset`, `sqlite3_clear_bindings`, then `commit`: the values `"a"`
and `"b"` are passed to no call.  And on every engine, from every world, the
run is the same as for the payload with other values, in other numbers, in
the argument batches. -/
theorem C4_batchJSON_passes_no_value :
    (batchJSON testEngine (.ok (encode scenario1)) ⟨TestDb.empty, []⟩).1.trace =
      [Event.beginTransaction none,
        Event.prepareQuery "INSERT INTO t(id) VALUES(?)" (.inr 0),
        Event.executeUpdateStmt 0 none, Event.sqlite3_reset 0,
        Event.sqlite3_clear_bindings 0,
        Event.executeUpdateStmt 0 none, Event.sqlite3_reset 0,
        Event.sqlite3_clear_bindings 0, Event.commit none] ∧
    ∀ (τ : Type) (E : Engine τ) (w : World τ),
      batchJSON E (.ok (encode scenario1)) w =
        batchJSON E (.ok (encode scenario1OtherValues)) w :=
  ⟨by decide, fun _ _ _ => rfl⟩

/-- Claim C3, evaluation at the failing input: Scenario 1 on the test engine:
both paths return normally, but the structured path commits the insert with
`"a"` bound and then with `"b"` bound, whereas the streamed path commits two
executions of the insert with no value bound. -/
theorem C3_paths_differ_on_scenario1 :
    (batch testEngine scenario1 ⟨TestDb.empty, []⟩).2 = .ok () ∧
    (batch testEngine scenario1 ⟨TestDb.empty, []⟩).1.engine.committed =
      [("INSERT INTO t(id) VALUES(?)", [.str "a"]),
       ("INSERT INTO t(id) VALUES(?)", [.str "b"])] ∧
    (batchJSON testEngine (.ok (encode scenario1)) ⟨TestDb.empty, []⟩).2 = .ok () ∧
    (batchJSON testEngine (.ok (encode scenario1)) ⟨TestDb.empty, []⟩).1.engine.committed =
      [("INSERT INTO t(id) VALUES(?)", []),
       ("INSERT INTO t(id) VALUES(?)", [])] := by
  decide

end Database

/-! ## `resolveDatabasePath` -/

theorem rfind_zero_eq_zero_iff (s pattern : List Char) :
    rfind s pattern 0 = some 0 ↔ pattern <+: s := by
  unfold rfind
  by_cases hlen : pattern.length ≤ s.length
  · rw [if_pos hlen, Nat.zero_min, rfind.downFrom, List.drop_zero]
    by_cases htake : s.take pattern.length = pattern
    · rw [if_pos htake]
      exact ⟨fun _ => List.prefix_iff_eq_take.2 htake.symm, fun _ => rfl⟩
    · rw [if_neg htake]
      constructor
      · intro h; cases h
      · intro h; exact absurd (List.prefix_iff_eq_take.1 h).symm htake
  · rw [if_neg hlen]
    constructor
    · intro h; cases h
    · intro h; exact absurd h.length_le hlen

/-- Claim C10: `resolveDatabasePath` returns its argument unchanged, without
calling the platform's resolver, for every path that is empty, is exactly
`":memory:"`, starts with `"file:"` or starts with `"/"`; for every other
path it calls the platform's resolver once, with that path, and returns its
result. -/
theorem C10_resolveDatabasePath (platformResolveDatabasePath : String → String)
    (path : String) :
    resolveDatabasePath platformResolveDatabasePath path =
      if path = "" ∨ path = ":memory:" ∨ "file:".data <+: path.data ∨ "/".data <+: path.data
      then (path, [])
      else (platformResolveDatabasePath path, [path]) := by
  unfold resolveDatabasePath
  simp only [rfind_zero_eq_zero_iff]

/-! ## `SqliteDb::destroy` -/

namespace SqliteDb

variable {σ : Type}

theorem destroy_collect_eq (stmts list : List Stmt) :
    destroy.collect stmts list = stmts.reverse ++ list := by
  induction stmts generalizing list with
  | nil => rfl
  | cons stmt rest ih => simp [destroy.collect, ih]

theorem destroy_finalizeAll_calls (api : SqliteApi σ) (list : List Stmt) :
    ∀ self : SqliteDb σ,
      (destroy.finalizeAll api list self).calls =
        self.calls ++ list.map SqliteEvent.sqlite3_finalize ∧
      (destroy.finalizeAll api list self).isDestroyed_ = self.isDestroyed_ := by
  induction list with
  | nil => intro self; simp [destroy.finalizeAll]
  | cons stmt rest ih =>
    intro self
    simp only [destroy.finalizeAll]
    obtain ⟨h₁, h₂⟩ := ih
      { self with
        sqlite := api.sqlite3_finalize stmt self.sqlite
        calls := self.calls ++ [SqliteEvent.sqlite3_finalize stmt] }
    exact ⟨by rw [h₁]; simp, h₂⟩

theorem destroy_isDestroyed (api : SqliteApi σ) (self : SqliteDb σ) :
    (destroy api self).isDestroyed_ = true := by
  unfold destroy
  by_cases h : self.isDestroyed_ = true
  · rw [if_pos h]; exact h
  · rw [if_neg h]
    dsimp only
    split <;> exact (destroy_finalizeAll_calls api _ _).2

theorem destroy_of_destroyed (api : SqliteApi σ) (self : SqliteDb σ)
    (h : self.isDestroyed_ = true) :
    destroy api self =
      { self with calls := self.calls ++ [SqliteEvent.consoleLog "Database is already closed"] } := by
  unfold destroy
  rw [if_pos h]

theorem destroy_first_calls (api : SqliteApi σ) (self : SqliteDb σ)
    (h : self.isDestroyed_ = false) :
    ∃ (closeResult : Int) (detail : String),
      (destroy api self).calls =
        self.calls ++ SqliteEvent.consoleLog "Closing database..." ::
          ((api.statements self.sqlite).reverse.map SqliteEvent.sqlite3_finalize ++
            [SqliteEvent.sqlite3_close closeResult,
              if closeResult ≠ SQLITE_OK then
                SqliteEvent.consoleError ("Failed to close sqlite database - " ++ detail)
              else SqliteEvent.consoleLog "Database closed."]) := by
  unfold destroy
  rw [if_neg (by rw [h]; decide)]
  dsimp only
  have hcalls := (destroy_finalizeAll_calls api (destroy.collect (api.statements self.sqlite) [])
    { self with
      isDestroyed_ := true
      calls := self.calls ++ [SqliteEvent.consoleLog "Closing database..."] }).1
  rw [destroy_collect_eq] at hcalls ⊢
  generalize destroy.finalizeAll api ((api.statements self.sqlite).reverse ++ [])
    { self with
      isDestroyed_ := true
      calls := self.calls ++ [SqliteEvent.consoleLog "Closing database..."] } = self₂
    at hcalls ⊢
  refine ⟨(api.sqlite3_close self₂.sqlite).2,
    api.sqlite3_errmsg (api.sqlite3_close self₂.sqlite).1, ?_⟩
  split <;> simp [hcalls]

/-- Claim C7: `SqliteDb::destroy` is idempotent: for every connection, after
a call the object is marked destroyed; a further call changes neither the
flag nor the connection state and makes no call but the console message
"Database is already closed" (no `sqlite3_finalize`, no `sqlite3_close`), so
the engine-visible state after two calls is the state after one; and on a
first call whose `sqlite3_close` reports a failure, the failure is only
written with `consoleError`, last, and the call returns with the object
marked destroyed.  The function has no exception path. -/
theorem C7_destroy_idempotent (api : SqliteApi σ) (self : SqliteDb σ) :
    (destroy api self).isDestroyed_ = true ∧
    destroy api (destroy api self) =
      { destroy api self with
        calls := (destroy api self).calls ++
          [SqliteEvent.consoleLog "Database is already closed"] } ∧
    (self.isDestroyed_ = false →
      ∃ (before : List SqliteEvent) (closeResult : Int) (detail : String),
        (destroy api self).calls = before ++
          [SqliteEvent.sqlite3_close closeResult,
            if closeResult ≠ SQLITE_OK then
              SqliteEvent.consoleError ("Failed to close sqlite database - " ++ detail)
            else SqliteEvent.consoleLog "Database closed."]) := by
  refine ⟨destroy_isDestroyed api self,
    destroy_of_destroyed api _ (destroy_isDestroyed api self), ?_⟩
  intro h
  obtain ⟨closeResult, detail, hc⟩ := destroy_first_calls api self h
  refine ⟨self.calls ++ SqliteEvent.consoleLog "Closing database..." ::
    (api.statements self.sqlite).reverse.map SqliteEvent.sqlite3_finalize, closeResult,
    detail, ?_⟩
  rw [hc]; simp

/-- Claim C7, witness: a live connection whose `sqlite3_close` fails.  The
first call returns with the object marked destroyed and `consoleError` as its
last call. -/
theorem C7_destroy_idempotent_witness :
    liveDb.isDestroyed_ = false ∧
    (destroy busyApi liveDb).calls =
      [SqliteEvent.consoleLog "Closing database...", SqliteEvent.sqlite3_finalize 2,
        SqliteEvent.sqlite3_finalize 1, SqliteEvent.sqlite3_finalize 3,
        SqliteEvent.sqlite3_close 5,
        SqliteEvent.consoleError "Failed to close sqlite database - database is locked"] ∧
    ∃ (before : List SqliteEvent) (closeResult : Int) (detail : String),
      (destroy busyApi liveDb).calls = before ++
        [SqliteEvent.sqlite3_close closeResult,
          if closeResult ≠ SQLITE_OK then
            SqliteEvent.consoleError ("Failed to close sqlite database - " ++ detail)
          else SqliteEvent.consoleLog "Database closed."] :=
  ⟨rfl, by decide, (C7_destroy_idempotent busyApi liveDb).2.2 rfl⟩

/-- The path of `destroy` that does what teardown is meant to do, taken when
the flag reads false: the console message, then `sqlite3_finalize` on each
statement the enumeration of the connection reports (in reverse order of the
enumeration), then one `sqlite3_close`, then one console message.  Every
finalize comes before the single close, and each statement is finalized as
many times as the enumeration reports it. -/
theorem destroy_live_finalizes_all_before_close (api : SqliteApi σ) (self : SqliteDb σ)
    (h : self.isDestroyed_ = false) :
    (∃ (closeResult : Int) (message : SqliteEvent),
      (destroy api self).calls =
        self.calls ++ SqliteEvent.consoleLog "Closing database..." ::
          ((api.statements self.sqlite).reverse.map SqliteEvent.sqlite3_finalize ++
            [SqliteEvent.sqlite3_close closeResult, message]) ∧
      (message = SqliteEvent.consoleLog "Database closed." ∨
        ∃ text, message = SqliteEvent.consoleError text)) ∧
    (∀ stmt : Stmt,
      (destroy api self).calls.count (SqliteEvent.sqlite3_finalize stmt) =
        self.calls.count (SqliteEvent.sqlite3_finalize stmt) +
          (api.statements self.sqlite).count stmt) ∧
    ((api.statements self.sqlite).Nodup → ∀ stmt ∈ api.statements self.sqlite,
      (destroy api self).calls.count (SqliteEvent.sqlite3_finalize stmt) =
        self.calls.count (SqliteEvent.sqlite3_finalize stmt) + 1) := by
  obtain ⟨closeResult, detail, hc⟩ := destroy_first_calls api self h
  have hcount : ∀ stmt : Stmt,
      (destroy api self).calls.count (SqliteEvent.sqlite3_finalize stmt) =
        self.calls.count (SqliteEvent.sqlite3_finalize stmt) +
          (api.statements self.sqlite).count stmt := by
    intro stmt
    rw [hc]
    have hinj : Function.Injective SqliteEvent.sqlite3_finalize := by
      intro a b hab; cases hab; rfl
    simp only [List.count_append, List.count_cons, List.count_nil,
      List.count_map_of_injective _ _ hinj, List.count_reverse]
    by_cases hr : closeResult = SQLITE_OK <;> simp [hr]
  refine ⟨?_, hcount, ?_⟩
  · refine ⟨closeResult, _, hc, ?_⟩
    by_cases hr : closeResult ≠ SQLITE_OK
    · rw [if_pos hr]; exact Or.inr ⟨_, rfl⟩
    · rw [if_neg hr]; exact Or.inl rfl
  · intro hnodup stmt hmem
    rw [hcount stmt, List.count_eq_one_of_mem hnodup hmem]

/-- Claim C8, evaluation at the failing input: the object as the constructor
leaves it, with the flag reading true.  For every connection the first call
of `destroy` only writes "Database is already closed": no statement is
enumerated or finalized and the connection is not closed.  On the connection
with the open statements 3, 1, 2 these stay open, whereas with the flag
reading false the same call finalizes the three of them and closes. -/
theorem C8_first_destroy_skips_when_flag_reads_true :
    (∀ (τ : Type) (api : SqliteApi τ) (sqlite : τ),
      destroy api (constructed sqlite true) =
        ⟨sqlite, true, [SqliteEvent.consoleLog "Database is already closed"]⟩) ∧
    (destroy testApi (constructed [3, 1, 2] true)).sqlite = [3, 1, 2] ∧
    (destroy testApi (constructed [3, 1, 2] true)).calls =
      [SqliteEvent.consoleLog "Database is already closed"] ∧
    (destroy testApi (constructed [3, 1, 2] false)).calls =
      [SqliteEvent.consoleLog "Closing database...", SqliteEvent.sqlite3_finalize 2,
        SqliteEvent.sqlite3_finalize 1, SqliteEvent.sqlite3_finalize 3,
        SqliteEvent.sqlite3_close 0, SqliteEvent.consoleLog "Database closed."] :=
  ⟨fun _ _ _ => rfl, by decide, by decide, by decide⟩

end SqliteDb

end WatermelonDB
